import Mathlib

/-!
Verification of the account scheduling and relay engine of a multiplexing
LLM relay service. The JavaScript sources are embedded shallowly:
JS strings are `List Char`, JS numbers are `ℚ`, absent object fields are
`Option`, and the Redis coordination store is a function from keys to
optional entries. Each embedded definition mirrors one source function.
-/

namespace Relay

/-- JS strings are modelled as lists of characters, so that byte-level
splitting and concatenation can be reasoned about directly. -/
abbrev JStr := List Char

/-! ### Intelligent account selector
Embeds `IntelligentAccountSelector` (`_groupAccountsByUsage`,
`_selectFromGroups`, `_selectFromSameGroup`). -/

/-- An account as seen by the selector after enrichment: `priority` and
`lastUsedAt` may be absent, `usagePercentage` is the enriched usage ratio. -/
structure DAccount where
  id : String
  priority : Option Int
  lastUsedAt : Option Int
  usagePercentage : Option ℚ
  deriving Repr, DecidableEq

/-- JS `x || 0` on the `usagePercentage` field: an absent ratio reads as 0. -/
def usageOf (a : DAccount) : ℚ := a.usagePercentage.getD 0

/-- JS `parseInt(p) || 50` (also `p || 50`) on a numeric priority: absent or
zero priority falls back to the default 50. -/
def jsOr50 (p : Option Int) : Int :=
  match p with
  | none => 50
  | some v => if v = 0 then 50 else v

/-- JS `lastUsedAt ? new Date(lastUsedAt).getTime() : 0`. -/
def lastUsedMs (a : DAccount) : Int := a.lastUsedAt.getD 0

/-- The four usage bands of the selector. -/
structure UsageGroups where
  low : List DAccount
  medium : List DAccount
  high : List DAccount
  critical : List DAccount
  deriving Repr, DecidableEq

/-- Usage-ratio thresholds configured in the selector constructor. -/
def thresholdLow : ℚ := 3 / 10
/-- Medium usage threshold (50%). -/
def thresholdMedium : ℚ := 1 / 2
/-- High usage threshold (80%). -/
def thresholdHigh : ℚ := 4 / 5

/-- One step of the grouping loop body of `_groupAccountsByUsage`. -/
def groupStep (g : UsageGroups) (a : DAccount) : UsageGroups :=
  let usage := usageOf a
  if usage < thresholdLow then { g with low := g.low ++ [a] }
  else if usage < thresholdMedium then { g with medium := g.medium ++ [a] }
  else if usage < thresholdHigh then { g with high := g.high ++ [a] }
  else { g with critical := g.critical ++ [a] }

/-- `_groupAccountsByUsage`: partition enriched accounts into the four bands. -/
def groupAccountsByUsage (accounts : List DAccount) : UsageGroups :=
  accounts.foldl groupStep ⟨[], [], [], []⟩

/-- Comparator of the first sort in `_selectFromSameGroup`:
descending configured priority (`priorityB - priorityA`). -/
def leByPriorityDesc (a b : DAccount) : Bool :=
  jsOr50 b.priority ≤ jsOr50 a.priority

/-- Comparator of the second sort in `_selectFromSameGroup`:
ascending `lastUsedAt` (`lastUsedA - lastUsedB`). -/
def leByLastUsed (a b : DAccount) : Bool :=
  lastUsedMs a ≤ lastUsedMs b

/-- `_selectFromSameGroup`: sort by descending priority, keep the accounts
tied at the top priority; a single survivor is returned directly, otherwise
the least-recently-used of the survivors is returned. -/
def selectFromSameGroup (accounts : List DAccount) : Option DAccount :=
  let sortedByPriority := accounts.mergeSort leByPriorityDesc
  match sortedByPriority with
  | [] => none
  | top :: rest =>
    let highestPriority := jsOr50 top.priority
    let highestPriorityAccounts :=
      (top :: rest).filter (fun a => jsOr50 a.priority = highestPriority)
    if highestPriorityAccounts.length = 1 then highestPriorityAccounts.head?
    else (highestPriorityAccounts.mergeSort leByLastUsed).head?

/-- The loop of `_selectFromGroups` over the ordered band list. -/
def selectFromGroupList : List (List DAccount) → Option DAccount
  | [] => none
  | g :: restGroups =>
    if g.length = 0 then selectFromGroupList restGroups
    else
      let selected := if g.length = 1 then g.head? else selectFromSameGroup g
      match selected with
      | some a => some a
      | none => selectFromGroupList restGroups

/-- `_selectFromGroups`: try the bands in the order low, medium, high,
critical and return the first selection that succeeds. -/
def selectFromGroups (groups : UsageGroups) : Option DAccount :=
  selectFromGroupList [groups.low, groups.medium, groups.high, groups.critical]

/-- The first non-empty band in the order low, medium, high, critical,
as the claim describes the selection target. -/
def firstNonEmptyBand (g : UsageGroups) : List DAccount :=
  if g.low ≠ [] then g.low
  else if g.medium ≠ [] then g.medium
  else if g.high ≠ [] then g.high
  else g.critical

/-- Membership in the low band: ratio below 30%. -/
abbrev inLowBand (a : DAccount) : Prop := usageOf a < thresholdLow
/-- Membership in the medium band: ratio in [30%, 50%). -/
abbrev inMediumBand (a : DAccount) : Prop :=
  ¬ usageOf a < thresholdLow ∧ usageOf a < thresholdMedium
/-- Membership in the high band: ratio in [50%, 80%). -/
abbrev inHighBand (a : DAccount) : Prop :=
  ¬ usageOf a < thresholdLow ∧ ¬ usageOf a < thresholdMedium ∧ usageOf a < thresholdHigh
/-- Membership in the critical band: ratio at least 80%. -/
abbrev inCriticalBand (a : DAccount) : Prop :=
  ¬ usageOf a < thresholdLow ∧ ¬ usageOf a < thresholdMedium ∧ ¬ usageOf a < thresholdHigh

lemma foldl_groupStep (accs : List DAccount) (g : UsageGroups) :
    List.foldl groupStep g accs =
      ⟨g.low ++ accs.filter (fun a => inLowBand a),
       g.medium ++ accs.filter (fun a => inMediumBand a),
       g.high ++ accs.filter (fun a => inHighBand a),
       g.critical ++ accs.filter (fun a => inCriticalBand a)⟩ := by
  induction accs generalizing g with
  | nil => simp
  | cons a t ih =>
    rw [List.foldl_cons, ih]
    unfold groupStep
    by_cases h1 : usageOf a < thresholdLow
    · simp [h1, List.filter_cons]
    · by_cases h2 : usageOf a < thresholdMedium
      · simp [h1, h2, List.filter_cons, not_lt.mp h1]
      · by_cases h3 : usageOf a < thresholdHigh
        · simp [h1, h2, h3, List.filter_cons, not_lt.mp h1, not_lt.mp h2]
        · simp [h1, h2, h3, List.filter_cons, not_lt.mp h1, not_lt.mp h2,
            not_lt.mp h3]

lemma groupAccountsByUsage_eq (accs : List DAccount) :
    groupAccountsByUsage accs =
      ⟨accs.filter (fun a => inLowBand a),
       accs.filter (fun a => inMediumBand a),
       accs.filter (fun a => inHighBand a),
       accs.filter (fun a => inCriticalBand a)⟩ := by
  simpa [groupAccountsByUsage] using foldl_groupStep accs ⟨[], [], [], []⟩

lemma leByPriorityDesc_trans (a b c : DAccount) :
    leByPriorityDesc a b = true → leByPriorityDesc b c = true →
      leByPriorityDesc a c = true := by
  simp only [leByPriorityDesc, decide_eq_true_eq]
  omega

lemma leByPriorityDesc_total (a b : DAccount) :
    (leByPriorityDesc a b || leByPriorityDesc b a) = true := by
  simp only [leByPriorityDesc, Bool.or_eq_true, decide_eq_true_eq]
  omega

lemma leByLastUsed_trans (a b c : DAccount) :
    leByLastUsed a b = true → leByLastUsed b c = true → leByLastUsed a c = true := by
  simp only [leByLastUsed, decide_eq_true_eq]
  omega

lemma leByLastUsed_total (a b : DAccount) :
    (leByLastUsed a b || leByLastUsed b a) = true := by
  simp only [leByLastUsed, Bool.or_eq_true, decide_eq_true_eq]
  omega

/-- Core correctness of `_selectFromSameGroup` on a non-empty list: the
result exists, belongs to the list, carries the maximal default-adjusted
priority, and is least-recently-used among the accounts tied at that
priority. -/
lemma selectFromSameGroup_spec (l : List DAccount) (hl : l ≠ []) :
    ∃ a, selectFromSameGroup l = some a ∧ a ∈ l
      ∧ (∀ b ∈ l, jsOr50 b.priority ≤ jsOr50 a.priority)
      ∧ (∀ b ∈ l, jsOr50 b.priority = jsOr50 a.priority →
          lastUsedMs a ≤ lastUsedMs b) := by
  have hperm := List.mergeSort_perm l leByPriorityDesc
  have hsorted := List.sorted_mergeSort leByPriorityDesc_trans leByPriorityDesc_total l
  rcases hs : l.mergeSort leByPriorityDesc with _ | ⟨top, rest⟩
  · rw [hs] at hperm
    exact absurd hperm.nil_eq.symm hl
  rw [hs] at hperm hsorted
  have hmem_iff : ∀ x : DAccount, x ∈ top :: rest ↔ x ∈ l := fun x => hperm.mem_iff
  have hmax : ∀ b ∈ top :: rest, jsOr50 b.priority ≤ jsOr50 top.priority := by
    intro b hb
    rcases List.mem_cons.mp hb with h | h
    · subst h; exact le_refl _
    · have := (List.pairwise_cons.mp hsorted).1 b h
      simpa [leByPriorityDesc] using this
  set F := (top :: rest).filter
    (fun a => decide (jsOr50 a.priority = jsOr50 top.priority)) with hF
  have htopF : top ∈ F := by
    rw [hF]
    exact List.mem_filter.mpr ⟨List.mem_cons_self _ _, by simp⟩
  have hFprio : ∀ x ∈ F, jsOr50 x.priority = jsOr50 top.priority := by
    intro x hx
    have := (List.mem_filter.mp (hF ▸ hx)).2
    simpa using this
  have hFsub : ∀ x ∈ F, x ∈ l := fun x hx =>
    (hmem_iff x).mp (List.mem_of_mem_filter (hF ▸ hx))
  have hFmem : ∀ b ∈ l, jsOr50 b.priority = jsOr50 top.priority → b ∈ F := by
    intro b hb hbp
    rw [hF]
    exact List.mem_filter.mpr ⟨(hmem_iff b).mpr hb, by simpa using hbp⟩
  simp only [selectFromSameGroup, hs]
  by_cases hlen : F.length = 1
  · rcases List.length_eq_one.mp hlen with ⟨x, hx⟩
    refine ⟨x, ?_, hFsub x (hx ▸ List.mem_singleton_self x), ?_, ?_⟩
    · simp [← hF, hlen, hx]
    · intro b hb
      have := hmax b ((hmem_iff b).mpr hb)
      have hxp := hFprio x (hx ▸ List.mem_singleton_self x)
      omega
    · intro b hb hbp
      have hxp := hFprio x (hx ▸ List.mem_singleton_self x)
      have hbF : b ∈ F := hFmem b hb (by omega)
      rw [hx] at hbF
      rcases List.mem_singleton.mp hbF with rfl
      exact le_refl _
  · have hperm2 := List.mergeSort_perm F leByLastUsed
    have hsorted2 := List.sorted_mergeSort leByLastUsed_trans leByLastUsed_total F
    rcases hs2 : F.mergeSort leByLastUsed with _ | ⟨a, t2⟩
    · rw [hs2] at hperm2
      exact absurd (hperm2.nil_eq ▸ htopF) (List.not_mem_nil top)
    rw [hs2] at hperm2 hsorted2
    have haF : a ∈ F := hperm2.mem_iff.mp (List.mem_cons_self _ _)
    refine ⟨a, ?_, hFsub a haF, ?_, ?_⟩
    · simp [← hF, hlen, hs2]
    · intro b hb
      have := hmax b ((hmem_iff b).mpr hb)
      have hap := hFprio a haF
      omega
    · intro b hb hbp
      have hap := hFprio a haF
      have hbF : b ∈ F := hFmem b hb (by omega)
      have hb2 : b ∈ a :: t2 := hperm2.mem_iff.mpr hbF
      rcases List.mem_cons.mp hb2 with rfl | h
      · exact le_refl _
      · have := (List.pairwise_cons.mp hsorted2).1 b h
        simpa [leByLastUsed] using this

/-- The band loop returns an element of the first band that is non-empty. -/
lemma selectFromGroupList_head (g : List DAccount) (rest : List (List DAccount))
    (hg : g ≠ []) :
    ∃ a, selectFromGroupList (g :: rest) = some a ∧ a ∈ g := by
  have hlen0 : ¬ g.length = 0 := by simpa [List.length_eq_zero] using hg
  by_cases h1 : g.length = 1
  · rcases List.length_eq_one.mp h1 with ⟨x, rfl⟩
    exact ⟨x, by simp [selectFromGroupList, h1], List.mem_singleton_self x⟩
  · rcases selectFromSameGroup_spec g hg with ⟨a, ha, hmem, -, -⟩
    exact ⟨a, by simp [selectFromGroupList, hlen0, h1, ha], hmem⟩

/-- `_selectFromGroups` selects from the first non-empty band. -/
lemma selectFromGroups_spec (g : UsageGroups) (hne : firstNonEmptyBand g ≠ []) :
    ∃ a, selectFromGroups g = some a ∧ a ∈ firstNonEmptyBand g := by
  unfold selectFromGroups firstNonEmptyBand at *
  by_cases hlow : g.low = []
  · by_cases hmed : g.medium = []
    · by_cases hhigh : g.high = []
      · simp only [hlow, hmed, hhigh, ne_eq, not_true_eq_false, if_false] at hne ⊢
        rcases selectFromGroupList_head g.critical [] hne with ⟨a, ha, hmem⟩
        exact ⟨a, by simpa [selectFromGroupList, hlow, hmed, hhigh] using ha, hmem⟩
      · simp only [hlow, hmed, hhigh, ne_eq, not_true_eq_false, if_false,
          not_false_eq_true, if_true] at hne ⊢
        rcases selectFromGroupList_head g.high [g.critical] hhigh with ⟨a, ha, hmem⟩
        exact ⟨a, by simpa [selectFromGroupList, hlow, hmed] using ha, hmem⟩
    · simp only [hlow, hmed, ne_eq, not_true_eq_false, if_false,
        not_false_eq_true, if_true] at hne ⊢
      rcases selectFromGroupList_head g.medium [g.high, g.critical] hmed with ⟨a, ha, hmem⟩
      exact ⟨a, by simpa [selectFromGroupList, hlow] using ha, hmem⟩
  · simp only [hlow, ne_eq, not_false_eq_true, if_true] at hne ⊢
    exact selectFromGroupList_head g.low [g.medium, g.high, g.critical] hlow

/-- If any band is non-empty, the first non-empty band is non-empty. -/
lemma firstNonEmptyBand_ne (g : UsageGroups)
    (h : g.low ≠ [] ∨ g.medium ≠ [] ∨ g.high ≠ [] ∨ g.critical ≠ []) :
    firstNonEmptyBand g ≠ [] := by
  unfold firstNonEmptyBand
  by_cases h1 : g.low = [] <;> by_cases h2 : g.medium = [] <;>
    by_cases h3 : g.high = [] <;> simp_all

/-- A non-empty candidate list yields a non-empty first band. -/
lemma firstNonEmptyBand_ne_nil (accs : List DAccount) (h : accs ≠ []) :
    firstNonEmptyBand (groupAccountsByUsage accs) ≠ [] := by
  rcases accs with _ | ⟨x, t⟩
  · exact absurd rfl h
  rw [groupAccountsByUsage_eq]
  apply firstNonEmptyBand_ne
  by_cases h1 : usageOf x < thresholdLow
  · exact Or.inl (List.ne_nil_of_mem
      (List.mem_filter.mpr ⟨List.mem_cons_self _ _, by simpa using h1⟩))
  · by_cases h2 : usageOf x < thresholdMedium
    · exact Or.inr (Or.inl (List.ne_nil_of_mem
        (List.mem_filter.mpr ⟨List.mem_cons_self _ _, by simp [not_lt.mp h1, h2]⟩)))
    · by_cases h3 : usageOf x < thresholdHigh
      · exact Or.inr (Or.inr (Or.inl (List.ne_nil_of_mem
          (List.mem_filter.mpr ⟨List.mem_cons_self _ _,
            by simp [not_lt.mp h1, not_lt.mp h2, h3]⟩))))
      · exact Or.inr (Or.inr (Or.inr (List.ne_nil_of_mem
          (List.mem_filter.mpr ⟨List.mem_cons_self _ _,
            by simp [not_lt.mp h1, not_lt.mp h2, not_lt.mp h3]⟩))))

/-- C1: for every non-empty list of enriched candidate accounts,
`_groupAccountsByUsage` partitions it into the four ordered bands
(ratio < 0.3 low, < 0.5 medium, < 0.8 high, otherwise critical) and
`_selectFromGroups` returns an account from the first non-empty band;
in particular two otherwise-tied accounts at 20% and 70% usage resolve
to the account at 20%. -/
theorem C1_usage_band_selection :
    (∀ accounts : List DAccount, accounts ≠ [] →
      ((groupAccountsByUsage accounts).low =
          accounts.filter (fun a => usageOf a < thresholdLow)
        ∧ (groupAccountsByUsage accounts).medium =
          accounts.filter (fun a => thresholdLow ≤ usageOf a ∧ usageOf a < thresholdMedium)
        ∧ (groupAccountsByUsage accounts).high =
          accounts.filter (fun a => thresholdMedium ≤ usageOf a ∧ usageOf a < thresholdHigh)
        ∧ (groupAccountsByUsage accounts).critical =
          accounts.filter (fun a => thresholdHigh ≤ usageOf a))
      ∧ ∃ a, selectFromGroups (groupAccountsByUsage accounts) = some a
          ∧ a ∈ firstNonEmptyBand (groupAccountsByUsage accounts))
    ∧ selectFromGroups (groupAccountsByUsage
        [⟨"A", some 50, some 0, some (1/5)⟩, ⟨"B", some 50, some 0, some (7/10)⟩]) =
      some ⟨"A", some 50, some 0, some (1/5)⟩ := by
  constructor
  · intro accounts hne
    refine ⟨?_, selectFromGroups_spec _ (firstNonEmptyBand_ne_nil accounts hne)⟩
    rw [groupAccountsByUsage_eq]
    refine ⟨by simp, by simp, ?_, ?_⟩
    · show List.filter (fun a => decide (inHighBand a)) accounts = _
      refine List.filter_congr fun a _ => ?_
      by_cases h : thresholdMedium ≤ usageOf a
      · have hl : thresholdLow ≤ usageOf a :=
          le_trans (by norm_num [thresholdLow, thresholdMedium]) h
        simp [h, hl]
      · simp [h]
    · show List.filter (fun a => decide (inCriticalBand a)) accounts = _
      refine List.filter_congr fun a _ => ?_
      by_cases h : thresholdHigh ≤ usageOf a
      · have hm : thresholdMedium ≤ usageOf a :=
          le_trans (by norm_num [thresholdMedium, thresholdHigh]) h
        have hl : thresholdLow ≤ usageOf a :=
          le_trans (by norm_num [thresholdLow, thresholdMedium]) hm
        simp [h, hm, hl]
      · simp [h]
  · norm_num [selectFromGroups, groupAccountsByUsage, groupStep, usageOf,
      thresholdLow, thresholdMedium, thresholdHigh, selectFromGroupList]

/-- Witness for C1 at a concrete singleton input. -/
theorem C1_usage_band_selection_witness :
    ∃ a, selectFromGroups (groupAccountsByUsage
        [⟨"A", some 50, some 0, some (1/5)⟩]) = some a
      ∧ a ∈ firstNonEmptyBand (groupAccountsByUsage
        [⟨"A", some 50, some 0, some (1/5)⟩]) :=
  (C1_usage_band_selection.1 [⟨"A", some 50, some 0, some (1/5)⟩] (by simp)).2

/-- C2: within a usage band holding two or more candidates,
`_selectFromSameGroup` returns an account of maximal configured priority
(default 50 when unset or zero), and least-recently-used among the accounts
tied at that maximal priority; when a tie-break stage leaves exactly one
candidate, maximality forces that candidate to be the one returned. -/
theorem C2_same_group_tie_break (accounts : List DAccount)
    (h : 2 ≤ accounts.length) :
    ∃ a, selectFromSameGroup accounts = some a ∧ a ∈ accounts
      ∧ (∀ b ∈ accounts, jsOr50 b.priority ≤ jsOr50 a.priority)
      ∧ (∀ b ∈ accounts, jsOr50 b.priority = jsOr50 a.priority →
          lastUsedMs a ≤ lastUsedMs b) :=
  selectFromSameGroup_spec accounts (by rintro rfl; simp at h)

/-- Witness for C2 at a concrete two-account band. -/
theorem C2_same_group_tie_break_witness :
    ∃ a, selectFromSameGroup
        [⟨"A", some 60, some 5, some (1/5)⟩, ⟨"B", some 40, some 3, some (1/5)⟩] = some a
      ∧ a ∈ [⟨"A", some 60, some 5, some (1/5)⟩, ⟨"B", some 40, some 3, some (1/5)⟩]
      ∧ (∀ b ∈ [(⟨"A", some 60, some 5, some (1/5)⟩ : DAccount),
            ⟨"B", some 40, some 3, some (1/5)⟩],
          jsOr50 b.priority ≤ jsOr50 a.priority)
      ∧ (∀ b ∈ [(⟨"A", some 60, some 5, some (1/5)⟩ : DAccount),
            ⟨"B", some 40, some 3, some (1/5)⟩],
          jsOr50 b.priority = jsOr50 a.priority → lastUsedMs a ≤ lastUsedMs b) :=
  C2_same_group_tie_break
    [⟨"A", some 60, some 5, some (1/5)⟩, ⟨"B", some 40, some 3, some (1/5)⟩]
    (by simp)

/-! ### Distributed lock
Embeds `DistributedLockService` (`acquireLock`, `releaseLock`, `extendLock`)
over a functional model of the Redis coordination store. -/

/-- One stored entry of the coordination store: the value at a key plus its
remaining TTL in milliseconds. -/
structure RedisEntry where
  value : String
  pttl : Int
  deriving Repr, DecidableEq

/-- The coordination store, keyed by strings. -/
def Store := String → Option RedisEntry

/-- Point update of the store. -/
def storeSet (s : Store) (k : String) (e : Option RedisEntry) : Store :=
  fun q => if q = k then e else s q

/-- Redis `SET key value PX ttl NX`: set only when the key is absent and
report whether the set happened. -/
def setNX (s : Store) (k v : String) (ttl : Int) : Bool × Store :=
  match s k with
  | none => (true, storeSet s k (some ⟨v, ttl⟩))
  | some _ => (false, s)

/-- A held lock lease, as built by `acquireLock`. -/
structure RLock where
  resource : String
  key : String
  value : String
  ttl : Int
  acquiredAt : Int
  expiresAt : Int
  deriving Repr, DecidableEq

/-- Prefix prepended to the resource name to build the lock key. -/
def lockPrefix : String := "lock:"

/-- JS `a || b` on a nullable number: absent and zero fall to the default. -/
def jsOrInt (a : Option Int) (b : Int) : Int :=
  match a with
  | none => b
  | some v => if v = 0 then b else v

/-- Default lock TTL configured in the service constructor (30s). -/
def defaultTTL : Int := 30000

/-- `releaseLock`: the Lua script deletes the key only when the stored value
equals the lease's fencing token; the caller gets `true` exactly when the
script returned 1. -/
def releaseLock (s : Store) (lock : Option RLock) : Bool × Store :=
  match lock with
  | none => (false, s)
  | some l =>
    if l.key = "" ∨ l.value = "" then (false, s)
    else
      match s l.key with
      | some e =>
        if e.value = l.value then (true, storeSet s l.key none) else (false, s)
      | none => (false, s)

/-- The TTL `extendLock` re-arms: `ttl || lock.ttl || defaultTTL`. -/
def extendNewTTL (l : RLock) (ttl : Option Int) : Int :=
  jsOrInt ttl (jsOrInt (some l.ttl) defaultTTL)

/-- `extendLock`: the Lua script re-arms the key's TTL via `pexpire` only
when the stored value equals the lease's fencing token. -/
def extendLock (s : Store) (lock : Option RLock) (ttl : Option Int) : Bool × Store :=
  match lock with
  | none => (false, s)
  | some l =>
    if l.key = "" ∨ l.value = "" then (false, s)
    else
      match s l.key with
      | some e =>
        if e.value = l.value
          then (true, storeSet s l.key (some ⟨e.value, extendNewTTL l ttl⟩))
          else (false, s)
      | none => (false, s)

/-- An interleaving of `SET NX` attempts on one resource key by two
competing callers: each attempt carries the caller tag and the caller's
fencing token; results report (caller, success) per attempt in order. -/
def runSetNXAttrib (s : Store) (k : String) (ttl : Int) :
    List (Bool × String) → List (Bool × Bool)
  | [] => []
  | (c, v) :: vs =>
    let r := setNX s k v ttl
    (c, r.1) :: runSetNXAttrib r.2 k ttl vs

/-- Result view of one `acquireLock` call: the lease (or `none`), the
fencing token supplied to each conditional-set attempt, and the sleeps
between attempts. -/
structure AcquireResult where
  result : Option RLock
  attemptTokens : List String
  delays : List Int
  deriving Repr, DecidableEq

/-- The attempt loop of `acquireLock`. `env i` is the state of the lock key
observed by the conditional set of attempt `i` (the key may be mutated
concurrently by other processes); `v` is the single token value the call
destructured from its options; the second argument counts the attempts
that remain out of `retries + 1`. -/
def acquireAttempts (resource v : String) (ttl retryDelay : Int)
    (env : Nat → Option String) (now : Int) : Nat → Nat → AcquireResult
  | _, 0 => ⟨none, [], []⟩
  | i, r + 1 =>
    match env i with
    | none =>
      ⟨some ⟨resource, lockPrefix ++ resource, v, ttl, now, now + ttl⟩, [v], []⟩
    | some _ =>
      let rest := acquireAttempts resource v ttl retryDelay env now (i + 1) r
      ⟨rest.result, v :: rest.attemptTokens,
        (if 0 < r then [retryDelay * ((i : Int) + 1)] else []) ++ rest.delays⟩

/-- `acquireLock`: draw one random token from the stream `rng` when the
options carry no explicit value, then run `retries + 1` conditional-set
attempts with linearly growing delay, returning `none` if all fail. -/
def acquireLock (resource : String) (ttl : Int) (retries : Nat)
    (retryDelay : Int) (rng : List String) (env : Nat → Option String)
    (now : Int) : AcquireResult :=
  acquireAttempts resource (rng.headD "") ttl retryDelay env now 0 (retries + 1)

lemma runSetNXAttrib_all_false (k : String) (ttl : Int) :
    ∀ (atts : List (Bool × String)) (s : Store) (e : RedisEntry),
      s k = some e → ∀ p ∈ runSetNXAttrib s k ttl atts, p.2 = false := by
  intro atts
  induction atts with
  | nil => intro s e _ p hp; simp [runSetNXAttrib] at hp
  | cons a vs ih =>
    intro s e hk p hp
    rcases a with ⟨c, v⟩
    rw [runSetNXAttrib] at hp
    simp only [setNX, hk] at hp
    rcases List.mem_cons.mp hp with rfl | h
    · rfl
    · exact ih s e hk p h

lemma runSetNXAttrib_at_most_one (k : String) (ttl : Int) :
    ∀ (atts : List (Bool × String)) (s : Store),
      ¬ ∃ c₁ c₂ : Bool, c₁ ≠ c₂
        ∧ (c₁, true) ∈ runSetNXAttrib s k ttl atts
        ∧ (c₂, true) ∈ runSetNXAttrib s k ttl atts := by
  intro atts
  induction atts with
  | nil => rintro s ⟨c₁, c₂, -, h₁, -⟩; simp [runSetNXAttrib] at h₁
  | cons a vs ih =>
    rintro s ⟨c₁, c₂, hne, h₁, h₂⟩
    rcases a with ⟨c, v⟩
    rw [runSetNXAttrib] at h₁ h₂
    rcases hk : s k with _ | e
    · simp only [setNX, hk] at h₁ h₂
      have hset : storeSet s k (some ⟨v, ttl⟩) k = some ⟨v, ttl⟩ := by
        simp [storeSet]
      have hfalse := runSetNXAttrib_all_false k ttl vs _ _ hset
      rcases List.mem_cons.mp h₁ with he₁ | h₁'
      · rcases List.mem_cons.mp h₂ with he₂ | h₂'
        · refine hne ?_
          have g₁ := congrArg Prod.fst he₁
          have g₂ := congrArg Prod.fst he₂
          simp only at g₁ g₂
          rw [g₁, g₂]
        · exact absurd (hfalse _ h₂') (by simp)
      · exact absurd (hfalse _ h₁') (by simp)
    · simp only [setNX, hk] at h₁ h₂
      have hfalse := runSetNXAttrib_all_false k ttl vs s e hk
      rcases List.mem_cons.mp h₁ with he₁ | h₁'
      · simp at he₁
      · exact absurd (hfalse _ h₁') (by simp)

lemma acquireAttempts_all_held (resource v : String) (ttl retryDelay : Int)
    (env : Nat → Option String) (now : Int) :
    ∀ (r i : Nat), (∀ j, i ≤ j → j < i + r → (env j).isSome) →
      acquireAttempts resource v ttl retryDelay env now i r =
        ⟨none, List.replicate r v,
          (List.range (r - 1)).map (fun t => retryDelay * ((i + t : Nat) + 1 : Int))⟩ := by
  intro r
  induction r with
  | zero => intro i _; simp [acquireAttempts]
  | succ n ih =>
    intro i hheld
    have hi : (env i).isSome := hheld i (le_refl i) (by omega)
    rcases he : env i with _ | w
    · rw [he] at hi; simp at hi
    have hrest := ih (i + 1) (fun j hj1 hj2 => hheld j (by omega) (by omega))
    simp only [acquireAttempts, he, hrest, AcquireResult.mk.injEq]
    refine ⟨trivial, by simp [List.replicate_succ], ?_⟩
    rcases n with _ | m
    · simp
    · have h0 : (0 : Nat) < m + 1 := by omega
      rw [if_pos h0]
      simp only [Nat.add_sub_cancel, Nat.succ_sub_one]
      rw [List.range_succ_eq_map, List.map_cons, List.map_map]
      simp only [List.singleton_append, List.cons.injEq]
      constructor
      · push_cast; ring
      · refine List.map_congr_left fun t _ => ?_
        simp only [Function.comp_apply]
        push_cast; ring

/-- C3 (amended): in any interleaving of conditional-set attempts by two
callers on the same resource key, at most one caller ever succeeds, and a
call that finds the key held at each of its `retries + 1` attempts returns
`nil` after exactly those attempts with linearly growing delays — all of a
call's attempts reuse the single random fencing-token value the call drew
at its start. -/
theorem C3_lock_acquire_bounded (s : Store) (k : String) (ttl : Int)
    (atts : List (Bool × String)) (resource : String) (lockTTL : Int)
    (retries : Nat) (retryDelay : Int) (rng : List String)
    (env : Nat → Option String) (now : Int)
    (hheld : ∀ i, i ≤ retries → (env i).isSome) :
    (¬ ∃ c₁ c₂ : Bool, c₁ ≠ c₂
        ∧ (c₁, true) ∈ runSetNXAttrib s k ttl atts
        ∧ (c₂, true) ∈ runSetNXAttrib s k ttl atts)
    ∧ acquireLock resource lockTTL retries retryDelay rng env now =
        ⟨none, List.replicate (retries + 1) (rng.headD ""),
          (List.range retries).map (fun t : Nat => retryDelay * ((t : Int) + 1))⟩ := by
  refine ⟨runSetNXAttrib_at_most_one k ttl atts s, ?_⟩
  rw [acquireLock,
    acquireAttempts_all_held resource (rng.headD "") lockTTL retryDelay env now
      (retries + 1) 0 (fun j _ hj2 => hheld j (by omega))]
  simp only [Nat.add_sub_cancel, AcquireResult.mk.injEq, true_and]
  exact List.map_congr_left fun t _ => by push_cast; ring

/-- Witness for C3 at a concrete contended run: two attempts by each of two
callers, and a loser that exhausts `retries = 1`. -/
theorem C3_lock_acquire_bounded_witness :
    (¬ ∃ c₁ c₂ : Bool, c₁ ≠ c₂
        ∧ (c₁, true) ∈ runSetNXAttrib (fun _ => none) "lock:r" 30000
            [(true, "a"), (false, "b")]
        ∧ (c₂, true) ∈ runSetNXAttrib (fun _ => none) "lock:r" 30000
            [(true, "a"), (false, "b")])
    ∧ acquireLock "r" 30000 1 50 ["a", "b"] (fun _ => some "x") 0 =
        ⟨none, List.replicate 2 "a",
          (List.range 1).map (fun t : Nat => 50 * ((t : Int) + 1))⟩ :=
  C3_lock_acquire_bounded (fun _ => none) "lock:r" 30000
    [(true, "a"), (false, "b")] "r" 30000 1 50 ["a", "b"]
    (fun _ => some "x") 0 (fun i _ => by simp)

/-- Counterexample to C3 as stated: the code draws one random token per
`acquireLock` call, not one per attempt, so a two-attempt losing call uses
the same token twice even though the random stream offers distinct values —
the attempt tokens are not pairwise distinct as per-attempt freshness
would force. -/
theorem C3_counterexample :
    (acquireLock "r" 30000 1 50 ["a", "b"] (fun _ => some "x") 0).attemptTokens
        = ["a", "a"]
      ∧ ¬ (acquireLock "r" 30000 1 50 ["a", "b"]
          (fun _ => some "x") 0).attemptTokens.Pairwise (· ≠ ·) := by
  constructor
  · rfl
  · intro h
    have : ("a" : String) ≠ "a" := by
      have hp : (acquireLock "r" 30000 1 50 ["a", "b"]
          (fun _ => some "x") 0).attemptTokens = ["a", "a"] := rfl
      rw [hp] at h
      exact (List.pairwise_cons.mp h).1 "a" (List.mem_singleton_self "a")
    exact this rfl

/-- C4: `releaseLock` and `extendLock` succeed exactly when the value stored
under the lock key equals the lease's fencing token; success deletes the key
(release) or re-arms its TTL keeping the value (extend), and failure leaves
the store unchanged. -/
theorem C4_fencing_token_gate (s : Store) (l : RLock) (t : Option Int)
    (hkey : l.key ≠ "") (hval : l.value ≠ "") :
    ((releaseLock s (some l)).1 = true ↔
        ∃ e, s l.key = some e ∧ e.value = l.value)
    ∧ ((releaseLock s (some l)).1 = true →
        (releaseLock s (some l)).2 = storeSet s l.key none)
    ∧ ((releaseLock s (some l)).1 = false → (releaseLock s (some l)).2 = s)
    ∧ ((extendLock s (some l) t).1 = true ↔
        ∃ e, s l.key = some e ∧ e.value = l.value)
    ∧ ((extendLock s (some l) t).1 = true →
        (extendLock s (some l) t).2 =
          storeSet s l.key (some ⟨l.value, extendNewTTL l t⟩))
    ∧ ((extendLock s (some l) t).1 = false → (extendLock s (some l) t).2 = s) := by
  have hguard : ¬ (l.key = "" ∨ l.value = "") := by
    rintro (h | h) <;> [exact hkey h; exact hval h]
  rcases hk : s l.key with _ | e
  · simp [releaseLock, extendLock, hguard, hk]
  · by_cases hv : e.value = l.value
    · have hrel : releaseLock s (some l) = (true, storeSet s l.key none) := by
        simp [releaseLock, hguard, hk, hv]
      have hext : extendLock s (some l) t =
          (true, storeSet s l.key (some ⟨l.value, extendNewTTL l t⟩)) := by
        simp [extendLock, hguard, hk, hv]
      rw [hrel, hext]
      exact ⟨iff_of_true rfl ⟨e, rfl, hv⟩, fun _ => rfl, by simp,
        iff_of_true rfl ⟨e, rfl, hv⟩, fun _ => rfl, by simp⟩
    · have hrel : releaseLock s (some l) = (false, s) := by
        simp [releaseLock, hguard, hk, hv]
      have hext : extendLock s (some l) t = (false, s) := by
        simp [extendLock, hguard, hk, hv]
      rw [hrel, hext]
      refine ⟨iff_of_false (by simp) ?_, by simp, fun _ => rfl,
        iff_of_false (by simp) ?_, by simp, fun _ => rfl⟩ <;>
      · rintro ⟨e', he', hv'⟩
        cases he'
        exact hv hv'

/-- A concrete store holding the lock key `lock:r` with token `tok`. -/
def demoStore : Store := storeSet (fun _ => none) "lock:r" (some ⟨"tok", 1000⟩)

/-- A concrete lease owning `lock:r` with token `tok`. -/
def demoLock : RLock := ⟨"r", "lock:r", "tok", 500, 0, 500⟩

/-- Witness for C4 at a concrete store and lease. -/
theorem C4_fencing_token_gate_witness :
    ((releaseLock demoStore (some demoLock)).1 = true ↔
        ∃ e, demoStore demoLock.key = some e ∧ e.value = demoLock.value)
    ∧ ((releaseLock demoStore (some demoLock)).1 = true →
        (releaseLock demoStore (some demoLock)).2 = storeSet demoStore demoLock.key none)
    ∧ ((releaseLock demoStore (some demoLock)).1 = false →
        (releaseLock demoStore (some demoLock)).2 = demoStore)
    ∧ ((extendLock demoStore (some demoLock) none).1 = true ↔
        ∃ e, demoStore demoLock.key = some e ∧ e.value = demoLock.value)
    ∧ ((extendLock demoStore (some demoLock) none).1 = true →
        (extendLock demoStore (some demoLock) none).2 =
          storeSet demoStore demoLock.key
            (some ⟨demoLock.value, extendNewTTL demoLock none⟩))
    ∧ ((extendLock demoStore (some demoLock) none).1 = false →
        (extendLock demoStore (some demoLock) none).2 = demoStore) :=
  C4_fencing_token_gate demoStore demoLock none (by simp [demoLock])
    (by simp [demoLock])

/-! ### Usage extractor
Embeds `_normalizeUsageSnapshot`, `_getTotalTokens` and `_recordUsage`. -/

/-- A JSON-ish field value as seen by the usage normalizer: `jnull` is JS
`null`, `jnum q` a value whose numeric coercion is the finite number `q`,
`jjunk` any value whose numeric coercion is not finite. -/
inductive JsVal where
  | jnull
  | jnum (q : ℚ)
  | jjunk
  deriving Repr, DecidableEq

/-- The nested `cache_creation` object of an Anthropic usage payload. -/
structure CacheCreation where
  ephemeral_5m_input_tokens : Option JsVal := none
  ephemeral_1h_input_tokens : Option JsVal := none
  deriving Repr, DecidableEq

/-- A raw usage object carrying every alternative field name the normalizer
probes; `none` is an absent field. -/
structure RawUsage where
  input_tokens : Option JsVal := none
  prompt_tokens : Option JsVal := none
  inputTokens : Option JsVal := none
  total_input_tokens : Option JsVal := none
  output_tokens : Option JsVal := none
  completion_tokens : Option JsVal := none
  outputTokens : Option JsVal := none
  cache_read_input_tokens : Option JsVal := none
  cacheReadTokens : Option JsVal := none
  input_tokens_details_cached_tokens : Option JsVal := none
  cache_creation_input_tokens : Option JsVal := none
  cacheCreateTokens : Option JsVal := none
  cache_tokens : Option JsVal := none
  cache_creation : Option CacheCreation := none
  ephemeral_5m_input_tokens : Option JsVal := none
  ephemeral_1h_input_tokens : Option JsVal := none
  deriving Repr, DecidableEq

/-- JS `a ?? b ?? ...`: the first operand that is neither absent nor null. -/
def firstNonNullish (l : List (Option JsVal)) : Option JsVal :=
  l.findSome? fun v =>
    match v with
    | some .jnull => none
    | some v' => some v'
    | none => none

/-- The `toNumber` helper shared by `_normalizeUsageSnapshot` and
`_getTotalTokens`: absent, null, empty and non-finite values coerce to 0,
finite numbers are clamped below at 0. -/
def toNumber (v : Option JsVal) : ℚ :=
  match v with
  | some (.jnum q) => max 0 q
  | _ => 0

/-- A normalized usage snapshot. -/
structure NormUsage where
  input_tokens : ℚ
  output_tokens : ℚ
  cache_creation_input_tokens : ℚ
  cache_read_input_tokens : ℚ
  cache_creation : Option (ℚ × ℚ)
  deriving Repr, DecidableEq

/-- Field chain `cache_creation?.ephemeral_5m_input_tokens ??
ephemeral_5m_input_tokens`, coerced. -/
def ephemeral5m (u : RawUsage) : ℚ :=
  toNumber (firstNonNullish
    [u.cache_creation.bind (·.ephemeral_5m_input_tokens), u.ephemeral_5m_input_tokens])

/-- Field chain `cache_creation?.ephemeral_1h_input_tokens ??
ephemeral_1h_input_tokens`, coerced. -/
def ephemeral1h (u : RawUsage) : ℚ :=
  toNumber (firstNonNullish
    [u.cache_creation.bind (·.ephemeral_1h_input_tokens), u.ephemeral_1h_input_tokens])

/-- Field chain `cache_creation_input_tokens ?? cacheCreateTokens ??
cache_tokens ?? 0` before coercion. -/
def rawCacheCreate (u : RawUsage) : Option JsVal :=
  firstNonNullish [u.cache_creation_input_tokens, u.cacheCreateTokens, u.cache_tokens]

/-- `_normalizeUsageSnapshot`: coerce each aliased field chain to a
non-negative number, folding the ephemeral cache sub-fields into the
cache-creation total when the top-level total coerces to zero. -/
def normalizeUsageSnapshot (u : RawUsage) : NormUsage :=
  let inputTokens := toNumber (firstNonNullish
    [u.input_tokens, u.prompt_tokens, u.inputTokens, u.total_input_tokens])
  let outputTokens := toNumber (firstNonNullish
    [u.output_tokens, u.completion_tokens, u.outputTokens])
  let cacheReadTokens := toNumber (firstNonNullish
    [u.cache_read_input_tokens, u.cacheReadTokens, u.input_tokens_details_cached_tokens])
  let cacheCreate := toNumber (rawCacheCreate u)
  let e5 := ephemeral5m u
  let e1 := ephemeral1h u
  { input_tokens := inputTokens
    output_tokens := outputTokens
    cache_creation_input_tokens :=
      if cacheCreate = 0 ∧ (0 < e5 ∨ 0 < e1) then e5 + e1 else cacheCreate
    cache_read_input_tokens := cacheReadTokens
    cache_creation := if 0 < e5 ∨ 0 < e1 then some (e5, e1) else none }

/-- `_getTotalTokens`: the sum of the four coerced counts of a usage object. -/
def getTotalTokens (u : RawUsage) : ℚ :=
  toNumber u.input_tokens + toNumber u.output_tokens +
    toNumber u.cache_creation_input_tokens + toNumber u.cache_read_input_tokens

/-- A normalized snapshot seen again as a raw usage object, as
`_recordUsage` and the response handlers pass it along. -/
def normToRaw (n : NormUsage) : RawUsage :=
  { input_tokens := some (.jnum n.input_tokens)
    output_tokens := some (.jnum n.output_tokens)
    cache_creation_input_tokens := some (.jnum n.cache_creation_input_tokens)
    cache_read_input_tokens := some (.jnum n.cache_read_input_tokens)
    cache_creation := n.cache_creation.map fun p =>
      ⟨some (.jnum p.1), some (.jnum p.2)⟩ }

/-- An optional field that never carries a finite number (it is absent, null
or unparseable). -/
def hasNoFiniteNumber (v : Option JsVal) : Prop :=
  ∀ q : ℚ, v ≠ some (.jnum q)

lemma toNumber_nonneg (v : Option JsVal) : 0 ≤ toNumber v := by
  rcases v with _ | w
  · simp [toNumber]
  · rcases w with _ | q | _ <;> simp [toNumber]

lemma toNumber_eq_zero_of_noNum (v : Option JsVal) (h : hasNoFiniteNumber v) :
    toNumber v = 0 := by
  rcases v with _ | w
  · rfl
  · rcases w with _ | q | _
    · rfl
    · exact absurd rfl (h q)
    · rfl

/-- C9 (amended): normalization yields four non-negative counts, chains
whose every alias is missing, null or unparseable coerce to 0, the
cache-creation count equals the ephemeral sub-field sum whenever the
top-level cache-creation total coerces to zero and a sub-field is positive,
and the total token count of the normalized snapshot is the sum of its four
counts. -/
theorem C9_usage_normalization (u : RawUsage) :
    (0 ≤ (normalizeUsageSnapshot u).input_tokens
      ∧ 0 ≤ (normalizeUsageSnapshot u).output_tokens
      ∧ 0 ≤ (normalizeUsageSnapshot u).cache_creation_input_tokens
      ∧ 0 ≤ (normalizeUsageSnapshot u).cache_read_input_tokens)
    ∧ (hasNoFiniteNumber (firstNonNullish
          [u.input_tokens, u.prompt_tokens, u.inputTokens, u.total_input_tokens]) →
        (normalizeUsageSnapshot u).input_tokens = 0)
    ∧ (hasNoFiniteNumber (firstNonNullish
          [u.output_tokens, u.completion_tokens, u.outputTokens]) →
        (normalizeUsageSnapshot u).output_tokens = 0)
    ∧ (hasNoFiniteNumber (firstNonNullish
          [u.cache_read_input_tokens, u.cacheReadTokens,
            u.input_tokens_details_cached_tokens]) →
        (normalizeUsageSnapshot u).cache_read_input_tokens = 0)
    ∧ (toNumber (rawCacheCreate u) = 0 ∧ (0 < ephemeral5m u ∨ 0 < ephemeral1h u) →
        (normalizeUsageSnapshot u).cache_creation_input_tokens =
          ephemeral5m u + ephemeral1h u)
    ∧ getTotalTokens (normToRaw (normalizeUsageSnapshot u)) =
        (normalizeUsageSnapshot u).input_tokens
          + (normalizeUsageSnapshot u).output_tokens
          + (normalizeUsageSnapshot u).cache_creation_input_tokens
          + (normalizeUsageSnapshot u).cache_read_input_tokens := by
  have hcc : 0 ≤ (normalizeUsageSnapshot u).cache_creation_input_tokens := by
    simp only [normalizeUsageSnapshot]
    split
    · have h5 := toNumber_nonneg (firstNonNullish
        [u.cache_creation.bind (·.ephemeral_5m_input_tokens), u.ephemeral_5m_input_tokens])
      have h1 := toNumber_nonneg (firstNonNullish
        [u.cache_creation.bind (·.ephemeral_1h_input_tokens), u.ephemeral_1h_input_tokens])
      simp only [ephemeral5m, ephemeral1h] at *
      linarith
    · exact toNumber_nonneg _
  refine ⟨⟨toNumber_nonneg _, toNumber_nonneg _, hcc, toNumber_nonneg _⟩,
    ?_, ?_, ?_, ?_, ?_⟩
  · intro h
    simpa [normalizeUsageSnapshot] using toNumber_eq_zero_of_noNum _ h
  · intro h
    simpa [normalizeUsageSnapshot] using toNumber_eq_zero_of_noNum _ h
  · intro h
    simpa [normalizeUsageSnapshot] using toNumber_eq_zero_of_noNum _ h
  · intro h
    simp only [normalizeUsageSnapshot]
    rw [if_pos h]
  · have hin := toNumber_nonneg (firstNonNullish
      [u.input_tokens, u.prompt_tokens, u.inputTokens, u.total_input_tokens])
    have hout := toNumber_nonneg (firstNonNullish
      [u.output_tokens, u.completion_tokens, u.outputTokens])
    have hread := toNumber_nonneg (firstNonNullish
      [u.cache_read_input_tokens, u.cacheReadTokens,
        u.input_tokens_details_cached_tokens])
    simp only [getTotalTokens, normToRaw, toNumber]
    simp only [normalizeUsageSnapshot] at hcc ⊢
    rw [max_eq_right (by simpa [normalizeUsageSnapshot] using hin),
      max_eq_right (by simpa [normalizeUsageSnapshot] using hout),
      max_eq_right hcc,
      max_eq_right (by simpa [normalizeUsageSnapshot] using hread)]

/-- A concrete raw usage object with an unparseable input chain and a
foldable cache-creation chain. -/
def foldableUsage : RawUsage :=
  { input_tokens := some .jjunk,
    cache_creation := some ⟨some (.jnum 3), some (.jnum 4)⟩ }

/-- Witness for C9 at `foldableUsage`. -/
theorem C9_usage_normalization_witness :
    (normalizeUsageSnapshot foldableUsage).input_tokens = 0
    ∧ (normalizeUsageSnapshot foldableUsage).cache_creation_input_tokens =
        ephemeral5m foldableUsage + ephemeral1h foldableUsage := by
  refine ⟨(C9_usage_normalization _).2.1 ?_, (C9_usage_normalization _).2.2.2.2.1 ?_⟩
  · intro q
    simp [foldableUsage, firstNonNullish]
  · constructor
    · simp [foldableUsage, rawCacheCreate, firstNonNullish, toNumber]
    · left
      simp [foldableUsage, ephemeral5m, firstNonNullish, toNumber]

/-- A raw usage object whose top-level cache-creation total (7) coincides
with the ephemeral sub-field sum (3 + 4). -/
def coincidentalUsage : RawUsage :=
  { cache_creation_input_tokens := some (.jnum 7),
    cache_creation := some ⟨some (.jnum 3), some (.jnum 4)⟩ }

/-- Counterexample to C9 as stated: with a non-zero top-level
cache-creation total of 7 and ephemeral sub-fields 3 and 4, the normalized
cache-creation count (7) happens to equal the sub-field sum even though the
top-level total is neither absent nor zero, so "equals the sum exactly when
the top-level total is absent or zero and a sub-field is positive" fails in
its only-if direction. -/
theorem C9_counterexample :
    (normalizeUsageSnapshot coincidentalUsage).cache_creation_input_tokens =
      ephemeral5m coincidentalUsage + ephemeral1h coincidentalUsage
    ∧ ¬ (toNumber (rawCacheCreate coincidentalUsage) = 0
        ∧ (0 < ephemeral5m coincidentalUsage ∨ 0 < ephemeral1h coincidentalUsage)) := by
  constructor
  · simp [coincidentalUsage, normalizeUsageSnapshot, rawCacheCreate,
      ephemeral5m, ephemeral1h, firstNonNullish, toNumber]
    norm_num
  · rintro ⟨h0, -⟩
    rw [show toNumber (rawCacheCreate coincidentalUsage) = 7 by
      simp [coincidentalUsage, rawCacheCreate, firstNonNullish, toNumber]] at h0
    norm_num at h0

/-- The externally visible effect of one `_recordUsage` call. -/
inductive RecordEffect where
  | none
  | keySink (keyId : String)
  | accountSink (accountId : String)
  | warn
  deriving Repr, DecidableEq

/-- `_recordUsage`: skip recording entirely when the total token count is
not positive; otherwise prefer the per-key sink, fall back to the
per-account counter, and only warn when neither identity is present. -/
def recordUsage (usageObject : RawUsage) (apiKeyId accountId : Option String) :
    RecordEffect :=
  if getTotalTokens usageObject ≤ 0 then .none
  else
    match apiKeyId with
    | some k => if k ≠ "" then .keySink k else
        match accountId with
        | some a => if a ≠ "" then .accountSink a else .warn
        | none => .warn
    | none =>
      match accountId with
      | some a => if a ≠ "" then .accountSink a else .warn
      | none => .warn

/-- C10: a completed request whose normalized snapshot has all four token
counts equal to zero records nothing — neither the per-key usage sink nor
the per-account usage counter is invoked. -/
theorem C10_zero_usage_no_op (n : NormUsage) (apiKeyId accountId : Option String)
    (hin : n.input_tokens = 0) (hout : n.output_tokens = 0)
    (hcc : n.cache_creation_input_tokens = 0)
    (hcr : n.cache_read_input_tokens = 0) :
    recordUsage (normToRaw n) apiKeyId accountId = .none := by
  have htot : getTotalTokens (normToRaw n) = 0 := by
    simp [getTotalTokens, normToRaw, toNumber, hin, hout, hcc, hcr]
  simp [recordUsage, htot]

/-- Witness for C10 at a concrete all-zero snapshot with both identities
present. -/
theorem C10_zero_usage_no_op_witness :
    recordUsage (normToRaw ⟨0, 0, 0, 0, Option.none⟩)
      (some "key1") (some "acct1") = .none :=
  C10_zero_usage_no_op ⟨0, 0, 0, 0, Option.none⟩ (some "key1") (some "acct1")
    rfl rfl rfl rfl

/-! ### Network failure mapping
Embeds `_mapNetworkErrorStatus`. -/

/-- A network/transport error carrying no upstream HTTP response: an error
object with optional `code` and `message` fields. -/
structure NetworkError where
  code : Option JStr := none
  message : Option JStr := none
  deriving Repr, DecidableEq

/-- JS `String(x).toUpperCase()`. -/
def jsUpper (s : JStr) : JStr := s.map Char.toUpper

/-- JS `String(x).toLowerCase()`. -/
def jsLower (s : JStr) : JStr := s.map Char.toLower

/-- JS `hay.includes(needle)`. -/
def jsIncludes (hay needle : JStr) : Bool := decide (needle <:+: hay)

/-- `(error && error.code ? String(error.code) : '').toUpperCase()`. -/
def codeOf (e : NetworkError) : JStr := jsUpper (e.code.getD [])

/-- `(error.message || '').toLowerCase()`. -/
def msgOf (e : NetworkError) : JStr := jsLower (e.message.getD [])

/-- `_mapNetworkErrorStatus`: code-based classification first, then
message-based classification, defaulting to 502. -/
def mapNetworkErrorStatus (e : NetworkError) : Nat :=
  if codeOf e = "ECONNABORTED".toList ∨ codeOf e = "ETIMEDOUT".toList then 408
  else if codeOf e = "ECONNRESET".toList ∨ codeOf e = "EPIPE".toList then 503
  else if codeOf e = "ENOTFOUND".toList ∨ codeOf e = "EAI_AGAIN".toList then 502
  else if codeOf e = "ECONNREFUSED".toList then 503
  else if codeOf e = "CERT_HAS_EXPIRED".toList
      ∨ codeOf e = "UNABLE_TO_VERIFY_LEAF_SIGNATURE".toList then 502
  else if codeOf e = "ENETUNREACH".toList ∨ codeOf e = "EHOSTUNREACH".toList then 503
  else if jsIncludes (msgOf e) "timeout".toList then
    if jsIncludes (msgOf e) "gateway".toList
        ∨ jsIncludes (msgOf e) "upstream".toList then 504
    else 408
  else if jsIncludes (msgOf e) "certificate".toList
      ∨ jsIncludes (msgOf e) "ssl".toList
      ∨ jsIncludes (msgOf e) "tls".toList then 502
  else if jsIncludes (msgOf e) "refused".toList
      ∨ jsIncludes (msgOf e) "unavailable".toList then 503
  else if jsIncludes (msgOf e) "dependency".toList
      ∨ jsIncludes (msgOf e) "upstream failed".toList then 424
  else 502

/-- Claim category: request-timeout error codes. -/
abbrev timeoutCode (e : NetworkError) : Prop :=
  codeOf e = "ECONNABORTED".toList ∨ codeOf e = "ETIMEDOUT".toList

/-- Claim category: connection reset / broken pipe / refused / unreachable
error codes. -/
abbrev connFailureCode (e : NetworkError) : Prop :=
  codeOf e = "ECONNRESET".toList ∨ codeOf e = "EPIPE".toList
    ∨ codeOf e = "ECONNREFUSED".toList ∨ codeOf e = "ENETUNREACH".toList
    ∨ codeOf e = "EHOSTUNREACH".toList

/-- Claim category: DNS-resolution or TLS-certificate error codes. -/
abbrev dnsOrCertCode (e : NetworkError) : Prop :=
  codeOf e = "ENOTFOUND".toList ∨ codeOf e = "EAI_AGAIN".toList
    ∨ codeOf e = "CERT_HAS_EXPIRED".toList
    ∨ codeOf e = "UNABLE_TO_VERIFY_LEAF_SIGNATURE".toList

/-- The error carries one of the recognized transport error codes. -/
abbrev recognizedCode (e : NetworkError) : Prop :=
  timeoutCode e ∨ connFailureCode e ∨ dnsOrCertCode e

/-- The message is labeled as a timeout. -/
abbrev timeoutMsg (e : NetworkError) : Prop :=
  jsIncludes (msgOf e) "timeout".toList = true

/-- The message is labeled as gateway- or upstream-related. -/
abbrev gatewayMsg (e : NetworkError) : Prop :=
  jsIncludes (msgOf e) "gateway".toList = true
    ∨ jsIncludes (msgOf e) "upstream".toList = true

/-- The message is labeled as certificate/SSL/TLS-related. -/
abbrev certMsg (e : NetworkError) : Prop :=
  jsIncludes (msgOf e) "certificate".toList = true
    ∨ jsIncludes (msgOf e) "ssl".toList = true
    ∨ jsIncludes (msgOf e) "tls".toList = true

/-- The message is labeled refused or unavailable. -/
abbrev refusedMsg (e : NetworkError) : Prop :=
  jsIncludes (msgOf e) "refused".toList = true
    ∨ jsIncludes (msgOf e) "unavailable".toList = true

/-- The message is labeled as a failed dependency or failed upstream. -/
abbrev depMsg (e : NetworkError) : Prop :=
  jsIncludes (msgOf e) "dependency".toList = true
    ∨ jsIncludes (msgOf e) "upstream failed".toList = true

/-- With no recognized transport error code, `_mapNetworkErrorStatus`
falls through to its message-based classification. -/
lemma mapStatus_no_code (e : NetworkError) (hrec : ¬ recognizedCode e) :
    mapNetworkErrorStatus e =
      (if jsIncludes (msgOf e) "timeout".toList = true then
        if jsIncludes (msgOf e) "gateway".toList = true
            ∨ jsIncludes (msgOf e) "upstream".toList = true then 504
        else 408
      else if jsIncludes (msgOf e) "certificate".toList = true
          ∨ jsIncludes (msgOf e) "ssl".toList = true
          ∨ jsIncludes (msgOf e) "tls".toList = true then 502
      else if jsIncludes (msgOf e) "refused".toList = true
          ∨ jsIncludes (msgOf e) "unavailable".toList = true then 503
      else if jsIncludes (msgOf e) "dependency".toList = true
          ∨ jsIncludes (msgOf e) "upstream failed".toList = true then 424
      else 502) := by
  have h1 : ¬ (codeOf e = "ECONNABORTED".toList ∨ codeOf e = "ETIMEDOUT".toList) :=
    fun h => hrec (Or.inl h)
  have h2 : ¬ (codeOf e = "ECONNRESET".toList ∨ codeOf e = "EPIPE".toList) := by
    rintro (h | h) <;>
      exact hrec (Or.inr (Or.inl (by unfold connFailureCode; tauto)))
  have h3 : ¬ (codeOf e = "ENOTFOUND".toList ∨ codeOf e = "EAI_AGAIN".toList) := by
    rintro (h | h) <;>
      exact hrec (Or.inr (Or.inr (by unfold dnsOrCertCode; tauto)))
  have h4 : ¬ codeOf e = "ECONNREFUSED".toList := fun h =>
    hrec (Or.inr (Or.inl (by unfold connFailureCode; tauto)))
  have h5 : ¬ (codeOf e = "CERT_HAS_EXPIRED".toList
      ∨ codeOf e = "UNABLE_TO_VERIFY_LEAF_SIGNATURE".toList) := by
    rintro (h | h) <;>
      exact hrec (Or.inr (Or.inr (by unfold dnsOrCertCode; tauto)))
  have h6 : ¬ (codeOf e = "ENETUNREACH".toList ∨ codeOf e = "EHOSTUNREACH".toList) := by
    rintro (h | h) <;>
      exact hrec (Or.inr (Or.inl (by unfold connFailureCode; tauto)))
  unfold mapNetworkErrorStatus
  rw [if_neg h1, if_neg h2, if_neg h3, if_neg h4, if_neg h5, if_neg h6]

/-- C7 (amended): the complete client-facing status mapping for
transport errors — request-timeout codes → 408; reset/pipe/refused/
unreachable codes → 503; DNS and certificate codes → 502; with no
recognized code, timeout-labeled messages → 504 when gateway/upstream-
labeled, else 408; certificate/SSL/TLS-labeled → 502; refused/unavailable-
labeled → 503; dependency/upstream-failure-labeled → 424; everything
else → 502. -/
theorem C7_network_error_status (e : NetworkError) :
    (timeoutCode e → mapNetworkErrorStatus e = 408)
    ∧ (connFailureCode e → mapNetworkErrorStatus e = 503)
    ∧ (dnsOrCertCode e → mapNetworkErrorStatus e = 502)
    ∧ (¬ recognizedCode e → timeoutMsg e → gatewayMsg e →
        mapNetworkErrorStatus e = 504)
    ∧ (¬ recognizedCode e → timeoutMsg e → ¬ gatewayMsg e →
        mapNetworkErrorStatus e = 408)
    ∧ (¬ recognizedCode e → ¬ timeoutMsg e → certMsg e →
        mapNetworkErrorStatus e = 502)
    ∧ (¬ recognizedCode e → ¬ timeoutMsg e → ¬ certMsg e → refusedMsg e →
        mapNetworkErrorStatus e = 503)
    ∧ (¬ recognizedCode e → ¬ timeoutMsg e → ¬ certMsg e → ¬ refusedMsg e →
        depMsg e → mapNetworkErrorStatus e = 424)
    ∧ (¬ recognizedCode e → ¬ timeoutMsg e → ¬ certMsg e → ¬ refusedMsg e →
        ¬ depMsg e → mapNetworkErrorStatus e = 502) := by
  refine ⟨?_, ?_, ?_, ?_, ?_, ?_, ?_, ?_, ?_⟩
  · intro h
    unfold timeoutCode at h
    unfold mapNetworkErrorStatus
    rw [if_pos h]
  · rintro (h | h | h | h | h) <;> unfold mapNetworkErrorStatus
    · rw [if_neg (by rw [h]; decide), if_pos (Or.inl h)]
    · rw [if_neg (by rw [h]; decide), if_pos (Or.inr h)]
    · rw [if_neg (by rw [h]; decide), if_neg (by rw [h]; decide),
        if_neg (by rw [h]; decide), if_pos h]
    · rw [if_neg (by rw [h]; decide), if_neg (by rw [h]; decide),
        if_neg (by rw [h]; decide), if_neg (by rw [h]; decide),
        if_neg (by rw [h]; decide), if_pos (Or.inl h)]
    · rw [if_neg (by rw [h]; decide), if_neg (by rw [h]; decide),
        if_neg (by rw [h]; decide), if_neg (by rw [h]; decide),
        if_neg (by rw [h]; decide), if_pos (Or.inr h)]
  · rintro (h | h | h | h) <;> unfold mapNetworkErrorStatus
    · rw [if_neg (by rw [h]; decide), if_neg (by rw [h]; decide),
        if_pos (Or.inl h)]
    · rw [if_neg (by rw [h]; decide), if_neg (by rw [h]; decide),
        if_pos (Or.inr h)]
    · rw [if_neg (by rw [h]; decide), if_neg (by rw [h]; decide),
        if_neg (by rw [h]; decide), if_neg (by rw [h]; decide),
        if_pos (Or.inl h)]
    · rw [if_neg (by rw [h]; decide), if_neg (by rw [h]; decide),
        if_neg (by rw [h]; decide), if_neg (by rw [h]; decide),
        if_pos (Or.inr h)]
  · intro hrec htm hgw
    unfold timeoutMsg at htm
    unfold gatewayMsg at hgw
    rw [mapStatus_no_code e hrec, if_pos htm, if_pos hgw]
  · intro hrec htm hgw
    unfold timeoutMsg at htm
    unfold gatewayMsg at hgw
    rw [mapStatus_no_code e hrec, if_pos htm, if_neg hgw]
  · intro hrec htm hcm
    unfold timeoutMsg at htm
    unfold certMsg at hcm
    rw [mapStatus_no_code e hrec, if_neg htm, if_pos hcm]
  · intro hrec htm hcm hrm
    unfold timeoutMsg at htm
    unfold certMsg at hcm
    unfold refusedMsg at hrm
    rw [mapStatus_no_code e hrec, if_neg htm, if_neg hcm, if_pos hrm]
  · intro hrec htm hcm hrm hdm
    unfold timeoutMsg at htm
    unfold certMsg at hcm
    unfold refusedMsg at hrm
    unfold depMsg at hdm
    rw [mapStatus_no_code e hrec, if_neg htm, if_neg hcm, if_neg hrm, if_pos hdm]
  · intro hrec htm hcm hrm hdm
    unfold timeoutMsg at htm
    unfold certMsg at hcm
    unfold refusedMsg at hrm
    unfold depMsg at hdm
    rw [mapStatus_no_code e hrec, if_neg htm, if_neg hcm, if_neg hrm, if_neg hdm]

/-- A transport error carrying no code and a dependency-failure message. -/
def depFailure : NetworkError :=
  { code := none, message := some "dependency failure".toList }

/-- Counterexample to C7 as stated: an error with no code whose
message reads "dependency failure" matches none of the claim's categories
(not a timeout, not reset/refused/unreachable, not DNS/certificate), yet
the code maps it to 424 Failed Dependency instead of the claimed 502
default. -/
theorem C7_counterexample :
    mapNetworkErrorStatus depFailure = 424
    ∧ ¬ timeoutCode depFailure ∧ ¬ connFailureCode depFailure
    ∧ ¬ dnsOrCertCode depFailure ∧ ¬ timeoutMsg depFailure
    ∧ ¬ certMsg depFailure ∧ ¬ refusedMsg depFailure
    ∧ mapNetworkErrorStatus depFailure ≠ 502 := by
  decide

/-- Witness for C7 at a concrete timeout-coded error. -/
theorem C7_network_error_status_witness :
    mapNetworkErrorStatus { code := some "ETIMEDOUT".toList } = 408 :=
  (C7_network_error_status { code := some "ETIMEDOUT".toList }).1 (by decide)

/-! ### Request body processing
Embeds `_processRequestBody` (metadata stripping, stream flag forcing,
idempotent system-prompt injection, temperature/top_p exclusivity). -/

/-- The fixed system prompt the relay injects. -/
def SYSTEM_PROMPT : JStr :=
  "You are Droid, an AI software engineering agent built by Factory.".toList

/-- One member of an Anthropic `system` array: a typed block carrying
`type` and `text` strings, or any other member (null, non-object, or a
block without string fields), tagged opaquely. -/
inductive SysBlock where
  | blk (btype : JStr) (btext : JStr)
  | weird (tag : Nat)
  deriving Repr, DecidableEq

/-- The `system` field: an array of blocks or any non-array value. -/
inductive SystemVal where
  | arr (blocks : List SysBlock)
  | nonArray (tag : Nat)
  deriving Repr, DecidableEq

/-- The inbound `stream` field value. -/
inductive StreamVal where
  | flag (b : Bool)
  | other (tag : Nat)
  deriving Repr, DecidableEq

/-- A relay request body restricted to the fields `_processRequestBody`
reads or writes. -/
structure RequestBody where
  metadata : Option Nat := none
  stream : Option StreamVal := none
  system : Option SystemVal := none
  instructions : Option JStr := none
  temperature : Option JsVal := none
  top_p : Option JsVal := none
  deriving Repr, DecidableEq

/-- `system.some(item => item && item.type === 'text' && item.text ===
this.systemPrompt)`. -/
def hasPromptBlock (blocks : List SysBlock) : Bool :=
  blocks.any fun b =>
    match b with
    | .blk t x => decide (t = "text".toList ∧ x = SYSTEM_PROMPT)
    | .weird _ => false

/-- JS `x !== undefined && x !== null`. -/
def presentNonNull (v : Option JsVal) : Bool :=
  match v with
  | some .jnull => false
  | some _ => true
  | none => false

/-- `_processRequestBody`: strip `metadata`; force `stream` to `false` when
streaming is disabled or was not requested (deleting nothing when the field
was absent) and to `true` otherwise; on the Anthropic endpoint inject the
fixed prompt as a leading text block of the `system` array unless an equal
block is already present; on the OpenAI endpoint prepend the fixed prompt
to `instructions` unless it is already a prefix; drop `top_p` when both
`temperature` and `top_p` are present and non-null. -/
def processRequestBody (body : RequestBody) (endpointType : JStr)
    (disableStreaming streamRequested : Bool) : RequestBody :=
  let b1 := { body with metadata := none }
  let b2 :=
    if disableStreaming ∨ ¬ streamRequested then
      if body.stream.isSome then { b1 with stream := some (.flag false) } else b1
    else { b1 with stream := some (.flag true) }
  let b3 :=
    if endpointType = "anthropic".toList ∧ SYSTEM_PROMPT ≠ [] then
      match b2.system with
      | some (.arr blocks) =>
        if hasPromptBlock blocks then b2
        else
          { b2 with
            system := some (.arr (.blk "text".toList SYSTEM_PROMPT :: blocks)) }
      | _ => { b2 with system := some (.arr [.blk "text".toList SYSTEM_PROMPT]) }
    else b2
  let b4 :=
    if endpointType = "openai".toList ∧ SYSTEM_PROMPT ≠ [] then
      match b3.instructions with
      | some i =>
        if i ≠ [] then
          if SYSTEM_PROMPT.isPrefixOf i then b3
          else { b3 with instructions := some (SYSTEM_PROMPT ++ i) }
        else { b3 with instructions := some SYSTEM_PROMPT }
      | none => { b3 with instructions := some SYSTEM_PROMPT }
    else b3
  if presentNonNull b4.temperature = true ∧ presentNonNull b4.top_p = true then
    { b4 with top_p := none }
  else b4

/-- The `stream` field after processing, as a function of its inbound
value. -/
def streamOut (st : Option StreamVal) (ds sr : Bool) : Option StreamVal :=
  if ds ∨ ¬ sr then (if st.isSome then some (.flag false) else st)
  else some (.flag true)

/-- The `system` field after processing. -/
def systemOut (sys : Option SystemVal) (et : JStr) : Option SystemVal :=
  if et = "anthropic".toList ∧ SYSTEM_PROMPT ≠ [] then
    match sys with
    | some (.arr blocks) =>
      if hasPromptBlock blocks then some (.arr blocks)
      else some (.arr (.blk "text".toList SYSTEM_PROMPT :: blocks))
    | _ => some (.arr [.blk "text".toList SYSTEM_PROMPT])
  else sys

/-- The `instructions` field after processing. -/
def instrOut (instr : Option JStr) (et : JStr) : Option JStr :=
  if et = "openai".toList ∧ SYSTEM_PROMPT ≠ [] then
    match instr with
    | some i =>
      if i ≠ [] then
        if SYSTEM_PROMPT.isPrefixOf i then some i else some (SYSTEM_PROMPT ++ i)
      else some SYSTEM_PROMPT
    | none => some SYSTEM_PROMPT
  else instr

/-- The `top_p` field after processing. -/
def topPOut (temp tp : Option JsVal) : Option JsVal :=
  if presentNonNull temp = true ∧ presentNonNull tp = true then none else tp

set_option maxHeartbeats 1600000 in
/-- `_processRequestBody` acts independently on each field. -/
lemma processRequestBody_fields (b : RequestBody) (et : JStr) (ds sr : Bool) :
    processRequestBody b et ds sr =
      { metadata := none,
        stream := streamOut b.stream ds sr,
        system := systemOut b.system et,
        instructions := instrOut b.instructions et,
        temperature := b.temperature,
        top_p := topPOut b.temperature b.top_p } := by
  rcases b with ⟨m, st, sys, instr, temp, tp⟩
  simp only [processRequestBody, streamOut, systemOut, instrOut, topPOut]
  by_cases h2 : et = "anthropic".toList ∧ SYSTEM_PROMPT ≠ []
  · by_cases h3 : et = "openai".toList ∧ SYSTEM_PROMPT ≠ []
    · exact absurd (h2.1.symm.trans h3.1) (by decide)
    · by_cases h1 : ds = true ∨ sr = false <;>
        rcases st with _ | sv <;>
          (try rcases sys with _ | (⟨bl⟩ | ⟨tg⟩)) <;>
            (try rcases instr with _ | ins) <;>
              (try by_cases h5 : hasPromptBlock bl = true) <;>
                (try by_cases h6 : ins = []) <;>
                  (try by_cases h7 : SYSTEM_PROMPT.isPrefixOf ins = true) <;>
                    (try simp_all) <;> (try (split_ifs <;> simp_all))
  · by_cases h3 : et = "openai".toList ∧ SYSTEM_PROMPT ≠ [] <;>
      by_cases h1 : ds = true ∨ sr = false <;>
        rcases st with _ | sv <;>
          (try rcases sys with _ | (⟨bl⟩ | ⟨tg⟩)) <;>
            (try rcases instr with _ | ins) <;>
              (try by_cases h5 : hasPromptBlock bl = true) <;>
                (try by_cases h6 : ins = []) <;>
                  (try by_cases h7 : SYSTEM_PROMPT.isPrefixOf ins = true) <;>
                    (try simp_all) <;> (try (split_ifs <;> simp_all))

lemma streamOut_idem (st : Option StreamVal) (ds sr : Bool) :
    streamOut (streamOut st ds sr) ds sr = streamOut st ds sr := by
  unfold streamOut
  by_cases h1 : ds = true ∨ sr = false <;> rcases st with _ | sv <;> simp [h1]

lemma hasPromptBlock_cons (bl : List SysBlock) :
    hasPromptBlock (.blk ['t', 'e', 'x', 't'] SYSTEM_PROMPT :: bl) = true := by
  have hd : hasPromptBlock [.blk ['t', 'e', 'x', 't'] SYSTEM_PROMPT] = true := by
    decide
  unfold hasPromptBlock at hd ⊢
  rw [List.any_cons, List.any_nil, Bool.or_false] at hd
  rw [List.any_cons, hd, Bool.true_or]

lemma systemOut_idem (sys : Option SystemVal) (et : JStr) :
    systemOut (systemOut sys et) et = systemOut sys et := by
  unfold systemOut
  by_cases h : et = "anthropic".toList ∧ SYSTEM_PROMPT ≠ []
  · simp only [if_pos h]
    rcases sys with _ | (⟨bl⟩ | ⟨tg⟩)
    · simp [hasPromptBlock_cons []]
    · by_cases hb : hasPromptBlock bl = true
      · simp [hb]
      · simp [hb, hasPromptBlock_cons bl]
    · simp [hasPromptBlock_cons []]
  · simp only [if_neg h]

lemma instrOut_idem (instr : Option JStr) (et : JStr) :
    instrOut (instrOut instr et) et = instrOut instr et := by
  unfold instrOut
  by_cases h : et = "openai".toList ∧ SYSTEM_PROMPT ≠ []
  · have hp : SYSTEM_PROMPT ≠ [] := h.2
    have hself : SYSTEM_PROMPT.isPrefixOf SYSTEM_PROMPT = true :=
      List.isPrefixOf_iff_prefix.mpr List.prefix_rfl
    simp only [if_pos h]
    rcases instr with _ | i
    · simp [hp, hself]
    · by_cases hi : i = []
      · subst hi
        simp [hp, hself]
      · by_cases hpre : SYSTEM_PROMPT.isPrefixOf i = true
        · simp [hi, hpre]
        · have happ : SYSTEM_PROMPT.isPrefixOf (SYSTEM_PROMPT ++ i) = true :=
            List.isPrefixOf_iff_prefix.mpr (List.prefix_append _ _)
          simp [hi, hpre, hp, happ]
  · simp only [if_neg h]

lemma topPOut_idem (temp tp : Option JsVal) :
    topPOut temp (topPOut temp tp) = topPOut temp tp := by
  unfold topPOut
  by_cases h : presentNonNull temp = true ∧ presentNonNull tp = true
  · simp only [if_pos h, ite_self]
  · simp only [if_neg h]

/-- C8: system-prompt injection is idempotent — processing an
already-processed request body yields the same body as processing it once,
for either endpoint type, so the fixed prompt is never duplicated in the
Anthropic `system` array nor as a repeated prefix of the OpenAI
`instructions` string. -/
theorem C8_prompt_injection_idempotent (body : RequestBody) (et : JStr)
    (ds sr : Bool) :
    processRequestBody (processRequestBody body et ds sr) et ds sr =
      processRequestBody body et ds sr := by
  rw [processRequestBody_fields body, processRequestBody_fields]
  simp only [streamOut_idem, systemOut_idem, instrOut_idem, topPOut_idem]

/-! ### Upstream 4xx health classifier
Embeds `_handleUpstreamClientError` and `_stopDroidAccountScheduling`.
The two `droidAccountService` collaborators they call are not among the
sources under verification, so they are modelled from the spec. -/

/-- One API key entry of a pool-auth account. -/
structure KeyEntry where
  id : String
  status : String
  deriving Repr, DecidableEq

/-- JS `s.trim()`. -/
def jsTrim (s : JStr) : JStr :=
  ((s.dropWhile Char.isWhitespace).reverse.dropWhile Char.isWhitespace).reverse

/-- A droid account as the health classifier sees it. -/
structure HAccount where
  id : Option String := none
  authenticationMethod : Option JStr := none
  apiKeys : List KeyEntry := []
  deriving Repr, DecidableEq

/-- `_extractAccountId`: the first truthy identifier alias, else null. -/
def extractAccountId (a : HAccount) : Option String :=
  match a.id with
  | some s => if s ≠ "" then some s else none
  | none => none

/-- Modelled from the spec: `droidAccountService.markApiKeyAsError` is not
among the sources (only its caller is); per the health-classifier state
machine — "Per ApiKeyEntry (pool mode): `active → error`" — marking sets
the named pool entry's status to error. -/
def markApiKeyAsError (keys : List KeyEntry) (keyId : String) : List KeyEntry :=
  keys.map fun k => if k.id = keyId then { k with status := "error" } else k

/-- Modelled from the spec: `droidAccountService.getDecryptedApiKeyEntries`
returns the account's current pool entries. -/
def getDecryptedApiKeyEntries (keys : List KeyEntry) : List KeyEntry := keys

/-- The account update `_stopDroidAccountScheduling` persists. -/
structure AccountUpdate where
  schedulable : Bool
  status : String
  deriving Repr, DecidableEq

/-- `_stopDroidAccountScheduling` updates the account with
`schedulable: 'false'` and `status: 'error'`. -/
def stopSchedulingUpdate : AccountUpdate := ⟨false, "error"⟩

/-- The observable effects of one `_handleUpstreamClientError` call. -/
structure HandlerEffects where
  markedKeyId : Option String := none
  finalKeys : List KeyEntry := []
  accountUpdate : Option AccountUpdate := none
  apiKeyStickyCleared : Bool := false
  accountStickyCleared : Bool := false
  rateLimitExcluded : Bool := false
  deriving Repr, DecidableEq

/-- `_handleUpstreamClientError`: classify an upstream 4xx status and apply
the corresponding credential-health mutations; `none` when a guard clause
skips handling (status outside 4xx, or no usable account id). -/
def handleUpstreamClientError (statusCode : Nat) (account : HAccount)
    (selectedKeyId : Option String) (sessionHash : Option String) :
    Option HandlerEffects :=
  if statusCode < 400 ∨ 500 ≤ statusCode then none
  else
    match extractAccountId account with
    | none => none
    | some _ =>
      let authMethod := jsTrim (jsLower (account.authenticationMethod.getD []))
      let clearSticky := sessionHash.isSome
      if statusCode = 400 then
        some { finalKeys := account.apiKeys,
               apiKeyStickyCleared := clearSticky,
               accountStickyCleared := clearSticky }
      else if statusCode = 429 then
        some { finalKeys := account.apiKeys, rateLimitExcluded := true,
               apiKeyStickyCleared := clearSticky,
               accountStickyCleared := clearSticky }
      else if statusCode = 404 then
        some { finalKeys := account.apiKeys,
               apiKeyStickyCleared := clearSticky,
               accountStickyCleared := clearSticky }
      else if statusCode = 401 ∨ statusCode = 403 then
        if authMethod = "api_key".toList then
          match selectedKeyId with
          | some kid =>
            let keysAfter := markApiKeyAsError account.apiKeys kid
            let activeEntries := (getDecryptedApiKeyEntries keysAfter).filter
              (fun k => k.status ≠ "error")
            if activeEntries.length = 0 then
              some { markedKeyId := some kid, finalKeys := keysAfter,
                     accountUpdate := some stopSchedulingUpdate,
                     apiKeyStickyCleared := clearSticky,
                     accountStickyCleared := clearSticky }
            else
              some { markedKeyId := some kid, finalKeys := keysAfter,
                     apiKeyStickyCleared := clearSticky }
          | none =>
            some { finalKeys := account.apiKeys,
                   accountUpdate := some stopSchedulingUpdate,
                   accountStickyCleared := clearSticky }
        else
          some { finalKeys := account.apiKeys,
                 accountUpdate := some stopSchedulingUpdate,
                 accountStickyCleared := clearSticky }
      else
        some { finalKeys := account.apiKeys,
               apiKeyStickyCleared := clearSticky,
               accountStickyCleared := clearSticky }

/-- The pool-mode account of the claim's scenario: three keys, two already
in error. -/
def scenarioAccount : HAccount :=
  { id := some "acct",
    authenticationMethod := some "api_key".toList,
    apiKeys := [⟨"k1", "error"⟩, ⟨"k2", "error"⟩, ⟨"k3", "active"⟩] }

/-- C5 (amended): on upstream 401/403 — in api_key-pool mode the specific
key used is marked `error` and the session's API-key sticky mapping is
cleared; when no keys remain with a status other than `error`, the account
is removed from scheduling (the update writes `schedulable: 'false'` and
`status: 'error'`; no literal `disabled` status is ever written) and the
account sticky mapping is cleared too, while with active keys remaining no
account update is issued; in token mode the account is removed from
scheduling directly with its sticky mapping cleared. The 3-key scenario of
the claim is verified concretely. -/
theorem C5_auth_error_handling (code : Nat) (account : HAccount) (kid : String)
    (sess : String) (hcode : code = 401 ∨ code = 403)
    (hid : (extractAccountId account).isSome = true) :
    (jsTrim (jsLower (account.authenticationMethod.getD [])) = "api_key".toList →
      ∃ E, handleUpstreamClientError code account (some kid) (some sess) = some E
        ∧ E.markedKeyId = some kid
        ∧ E.finalKeys = markApiKeyAsError account.apiKeys kid
        ∧ E.apiKeyStickyCleared = true
        ∧ (((markApiKeyAsError account.apiKeys kid).filter
              (fun k => k.status ≠ "error")).length = 0 →
            E.accountUpdate = some stopSchedulingUpdate
              ∧ E.accountStickyCleared = true)
        ∧ (((markApiKeyAsError account.apiKeys kid).filter
              (fun k => k.status ≠ "error")).length ≠ 0 →
            E.accountUpdate = none))
    ∧ (jsTrim (jsLower (account.authenticationMethod.getD [])) ≠ "api_key".toList →
      ∃ E, handleUpstreamClientError code account (some kid) (some sess) = some E
        ∧ E.accountUpdate = some stopSchedulingUpdate
        ∧ E.accountStickyCleared = true)
    ∧ handleUpstreamClientError 401 scenarioAccount (some "k3") (some "sess") =
        some { markedKeyId := some "k3",
               finalKeys := [⟨"k1", "error"⟩, ⟨"k2", "error"⟩, ⟨"k3", "error"⟩],
               accountUpdate := some stopSchedulingUpdate,
               apiKeyStickyCleared := true,
               accountStickyCleared := true } := by
  rcases hx : extractAccountId account with _ | aid
  · rw [hx] at hid
    simp at hid
  refine ⟨?_, ?_, by decide⟩
  · intro hauth
    rcases hcode with rfl | rfl <;>
      (simp only [handleUpstreamClientError, hx]
       rw [if_neg (by omega), if_neg (by omega), if_neg (by omega),
         if_neg (by omega), if_pos (by decide), if_pos hauth]
       simp only [getDecryptedApiKeyEntries]
       by_cases hlen : ((markApiKeyAsError account.apiKeys kid).filter
           (fun k => k.status ≠ "error")).length = 0)
    · rw [if_pos hlen]
      exact ⟨_, rfl, rfl, rfl, rfl, fun _ => ⟨rfl, rfl⟩, fun hne => absurd hlen hne⟩
    · rw [if_neg hlen]
      exact ⟨_, rfl, rfl, rfl, rfl, fun h0 => absurd h0 hlen, fun _ => rfl⟩
    · rw [if_pos hlen]
      exact ⟨_, rfl, rfl, rfl, rfl, fun _ => ⟨rfl, rfl⟩, fun hne => absurd hlen hne⟩
    · rw [if_neg hlen]
      exact ⟨_, rfl, rfl, rfl, rfl, fun h0 => absurd h0 hlen, fun _ => rfl⟩
  · intro hauth
    rcases hcode with rfl | rfl <;>
      (simp only [handleUpstreamClientError, hx]
       rw [if_neg (by omega), if_neg (by omega), if_neg (by omega),
         if_neg (by omega), if_pos (by decide), if_neg hauth]
       exact ⟨_, rfl, rfl, rfl⟩)

/-- Witness for C5 at the claim's concrete 3-key scenario inputs. -/
theorem C5_auth_error_handling_witness :
    ∃ E, handleUpstreamClientError 401 scenarioAccount (some "k3") (some "sess") =
        some E
      ∧ E.markedKeyId = some "k3"
      ∧ E.finalKeys = markApiKeyAsError scenarioAccount.apiKeys "k3"
      ∧ E.apiKeyStickyCleared = true
      ∧ (((markApiKeyAsError scenarioAccount.apiKeys "k3").filter
            (fun k => k.status ≠ "error")).length = 0 →
          E.accountUpdate = some stopSchedulingUpdate
            ∧ E.accountStickyCleared = true)
      ∧ (((markApiKeyAsError scenarioAccount.apiKeys "k3").filter
            (fun k => k.status ≠ "error")).length ≠ 0 →
          E.accountUpdate = none) :=
  (C5_auth_error_handling 401 scenarioAccount "k3" "sess" (Or.inl rfl)
    (by decide)).1 (by decide)

/-- Counterexample to C5 as stated: in the claim's own scenario the account
update written after the pool is exhausted carries `status: 'error'` with
`schedulable: false` — the stored status is never the literal `disabled`
the claim (and the spec's state table) names. -/
theorem C5_counterexample :
    ∃ E, handleUpstreamClientError 401 scenarioAccount (some "k3") (some "sess") =
        some E
      ∧ E.accountUpdate = some stopSchedulingUpdate
      ∧ stopSchedulingUpdate.status = "error"
      ∧ stopSchedulingUpdate.status ≠ "disabled"
      ∧ stopSchedulingUpdate.schedulable = false :=
  ⟨{ markedKeyId := some "k3",
     finalKeys := [⟨"k1", "error"⟩, ⟨"k2", "error"⟩, ⟨"k3", "error"⟩],
     accountUpdate := some stopSchedulingUpdate,
     apiKeyStickyCleared := true,
     accountStickyCleared := true },
   by decide, by decide, by decide, by decide, by decide⟩

/-! ### Streaming SSE usage extraction
Embeds `_parseAnthropicUsageFromSSE` and the chunk loop of
`_handleStreamRequest` that drives it, over `List Char` strings. The JSON
parser (`JSON.parse` in the source) is abstracted as a function
`jparse : JStr → Option UsageEvent` returning the usage event a payload
denotes, or `none` for payloads that fail to parse or carry no usage. -/

/-- JS `s.split('\n')`. -/
def splitNL : JStr → List JStr
  | [] => [[]]
  | c :: cs =>
    match splitNL cs with
    | [] => [[]]
    | l :: ls => if c = '\n' then [] :: l :: ls else (c :: l) :: ls

lemma splitNL_ne_nil (s : JStr) : splitNL s ≠ [] := by
  induction s with
  | nil => simp [splitNL]
  | cons c cs ih =>
    rw [splitNL]
    rcases h : splitNL cs with _ | ⟨l, ls⟩
    · simp
    · by_cases hc : c = '\n' <;> simp [hc]

/-- Append on the line decomposition: the last line of the left part fuses
with the first line of the right part. -/
def joinLast : List JStr → List JStr → List JStr
  | [], m => m
  | [l], m =>
    match m with
    | [] => [l]
    | m₀ :: ms => (l ++ m₀) :: ms
  | l :: l₂ :: ls, m => l :: joinLast (l₂ :: ls) m

lemma splitNL_append (p q : JStr) :
    splitNL (p ++ q) = joinLast (splitNL p) (splitNL q) := by
  induction p with
  | nil =>
    rcases h : splitNL q with _ | ⟨m₀, ms⟩
    · exact absurd h (splitNL_ne_nil q)
    · simp [splitNL, joinLast, h]
  | cons c cs ih =>
    rcases h1 : splitNL cs with _ | ⟨l, ls⟩
    · exact absurd h1 (splitNL_ne_nil cs)
    rcases h2 : splitNL q with _ | ⟨m₀, ms⟩
    · exact absurd h2 (splitNL_ne_nil q)
    have hcons : (c :: cs) ++ q = c :: (cs ++ q) := rfl
    rw [hcons, splitNL, ih, h1, h2, splitNL, h1]
    by_cases hc : c = '\n'
    · rcases hl : joinLast (l :: ls) (m₀ :: ms) with _ | ⟨j, js⟩
      · rcases ls with _ | ⟨l₂, ls₂⟩ <;> simp [joinLast] at hl
      · simp [hc, joinLast, hl]
    · rcases ls with _ | ⟨l₂, ls₂⟩ <;> simp [hc, joinLast]

lemma mem_joinLast (M : List JStr) (hM : M ≠ []) :
    ∀ (ls₁ : List JStr), ∀ L ∈ ls₁, ∃ L', L' ∈ joinLast ls₁ M ∧ L <+: L' := by
  intro ls₁
  induction ls₁ with
  | nil => intro L hL; simp at hL
  | cons l ls ih =>
    intro L hL
    rcases M with _ | ⟨m₀, ms⟩
    · exact absurd rfl hM
    rcases ls with _ | ⟨l₂, ls₂⟩
    · rcases List.mem_singleton.mp hL with rfl
      exact ⟨L ++ m₀, by simp [joinLast], List.prefix_append _ _⟩
    · rcases List.mem_cons.mp hL with rfl | hmem
      · exact ⟨L, by simp [joinLast], List.prefix_rfl⟩
      · rcases ih L hmem with ⟨L', hL', hpre⟩
        exact ⟨L', by simp [joinLast, hL'], hpre⟩

/-- Prefix stability of complete lines: every line of a prefix of a string
extends to a line of the whole string. -/
lemma mem_splitNL_prefix (p q : JStr) (L : JStr) (hL : L ∈ splitNL p) :
    ∃ L', L' ∈ splitNL (p ++ q) ∧ L <+: L' := by
  rw [splitNL_append]
  exact mem_joinLast (splitNL q) (splitNL_ne_nil q) (splitNL p) L hL

/-- A usage event extracted from one SSE `data:` payload:
`message_start` carries the input and cache token fields (with the optional
detailed `cache_creation` object), `message_delta` carries output tokens. -/
inductive UsageEvent where
  | messageStart (it cc cr : ℚ) (cache : Option (ℚ × ℚ))
  | messageDelta (ot : ℚ)
  deriving Repr, DecidableEq

/-- The incremental usage accumulator `currentUsageData`: the three fields
written together by `message_start`, the optional nested `cache_creation`
object, and the output tokens written by `message_delta`. -/
structure SSEUsageData where
  startGroup : Option (ℚ × ℚ × ℚ) := none
  cacheCreation : Option (ℚ × ℚ) := none
  outputTokens : Option ℚ := none
  deriving Repr, DecidableEq

/-- The empty accumulator `{}`. -/
def emptyUsage : SSEUsageData := {}

/-- The event denoted by one line: only `data: ` lines longer than six
characters are parsed (`line.startsWith('data: ') && line.length > 6`). -/
def lineEvent (jparse : JStr → Option UsageEvent) (line : JStr) :
    Option UsageEvent :=
  if "data: ".toList.isPrefixOf line = true ∧ 6 < line.length
    then jparse (line.drop 6) else none

/-- Mutation of the accumulator by one event. -/
def applyEvent (u : SSEUsageData) : UsageEvent → SSEUsageData
  | .messageStart it cc cr cache =>
    { startGroup := some (it, cc, cr),
      cacheCreation := match cache with
        | some c => some c
        | none => u.cacheCreation,
      outputTokens := u.outputTokens }
  | .messageDelta ot => { u with outputTokens := some ot }

/-- Processing of one line of the split. -/
def applyLine (jparse : JStr → Option UsageEvent) (u : SSEUsageData)
    (line : JStr) : SSEUsageData :=
  match lineEvent jparse line with
  | some ev => applyEvent u ev
  | none => u

/-- The loop of `_parseAnthropicUsageFromSSE` over the split lines. -/
def runLines (jparse : JStr → Option UsageEvent) (lines : List JStr)
    (u : SSEUsageData) : SSEUsageData :=
  lines.foldl (applyLine jparse) u

/-- `_parseAnthropicUsageFromSSE(chunkStr, buffer, currentUsageData)`:
split `buffer + chunkStr` into lines and fold them into the accumulator. -/
def parseAnthropicUsageFromSSE (jparse : JStr → Option UsageEvent)
    (chunkStr buffer : JStr) (u : SSEUsageData) : SSEUsageData :=
  runLines jparse (splitNL (buffer ++ chunkStr)) u

/-- One turn of the stream `data` handler: parse against the old buffer,
then append the chunk to the buffer. -/
def streamStep (jparse : JStr → Option UsageEvent)
    (st : JStr × SSEUsageData) (c : JStr) : JStr × SSEUsageData :=
  (st.1 ++ c, parseAnthropicUsageFromSSE jparse c st.1 st.2)

/-- The usage accumulated by the streaming path over a chunked response. -/
def runStream (jparse : JStr → Option UsageEvent) (chunks : List JStr) :
    SSEUsageData :=
  (chunks.foldl (streamStep jparse) ([], emptyUsage)).2

/-- The `message_start` write a line performs, if any. -/
def startWrite (jparse : JStr → Option UsageEvent) (line : JStr) :
    Option (ℚ × ℚ × ℚ) :=
  match lineEvent jparse line with
  | some (.messageStart it cc cr _) => some (it, cc, cr)
  | _ => none

/-- The `cache_creation` write a line performs, if any. -/
def cacheWrite (jparse : JStr → Option UsageEvent) (line : JStr) :
    Option (ℚ × ℚ) :=
  match lineEvent jparse line with
  | some (.messageStart _ _ _ (some c)) => some c
  | _ => none

/-- The `message_delta` write a line performs, if any. -/
def outWrite (jparse : JStr → Option UsageEvent) (line : JStr) : Option ℚ :=
  match lineEvent jparse line with
  | some (.messageDelta ot) => some ot
  | _ => none

/-- Last-write-wins fold of one accumulator field. -/
def lastWriteFold {β : Type} (h : JStr → Option β) (s₀ : Option β)
    (lines : List JStr) : Option β :=
  lines.foldl (fun s L => match h L with | some b => some b | none => s) s₀

/-- `runLines` acts on each accumulator field as an independent
last-write-wins fold. -/
lemma runLines_fields (jparse : JStr → Option UsageEvent)
    (lines : List JStr) (u : SSEUsageData) :
    runLines jparse lines u =
      { startGroup := lastWriteFold (startWrite jparse) u.startGroup lines,
        cacheCreation := lastWriteFold (cacheWrite jparse) u.cacheCreation lines,
        outputTokens := lastWriteFold (outWrite jparse) u.outputTokens lines } := by
  induction lines generalizing u with
  | nil => simp [runLines, lastWriteFold]
  | cons L ls ih =>
    rw [runLines, List.foldl_cons, ← runLines, ih]
    unfold lastWriteFold
    rw [List.foldl_cons, List.foldl_cons, List.foldl_cons]
    unfold applyLine startWrite cacheWrite outWrite
    rcases hev : lineEvent jparse L with _ | ev
    · simp
    · rcases ev with ⟨it, cc, cr, cache⟩ | ⟨ot⟩
      · rcases cache with _ | c <;> simp [applyEvent]
      · simp [applyEvent]

lemma lastWriteFold_of_none {β : Type} (h : JStr → Option β)
    (lines : List JStr) (s₀ : Option β) (hn : ∀ L ∈ lines, h L = none) :
    lastWriteFold h s₀ lines = s₀ := by
  induction lines with
  | nil => rfl
  | cons L ls ih =>
    unfold lastWriteFold
    rw [List.foldl_cons, hn L (List.mem_cons_self _ _)]
    exact ih (fun L' hL' => hn L' (List.mem_cons_of_mem _ hL'))

lemma lastWriteFold_congr_init {β : Type} (h : JStr → Option β)
    (lines : List JStr) (s₀ s₁ : Option β)
    (hs : ∃ L ∈ lines, (h L).isSome = true) :
    lastWriteFold h s₀ lines = lastWriteFold h s₁ lines := by
  induction lines with
  | nil => rcases hs with ⟨L, hL, -⟩; simp at hL
  | cons L ls ih =>
    unfold lastWriteFold
    rw [List.foldl_cons, List.foldl_cons]
    rcases hL : h L with _ | b
    · rcases hs with ⟨L', hL', hsome⟩
      rcases List.mem_cons.mp hL' with rfl | hmem
      · rw [hL] at hsome; simp at hsome
      · exact ih ⟨L', hmem, hsome⟩
    · rfl

lemma startWrite_isSome (jparse : JStr → Option UsageEvent) (L : JStr)
    (h : (startWrite jparse L).isSome = true) :
    (lineEvent jparse L).isSome = true := by
  unfold startWrite at h
  rcases hev : lineEvent jparse L with _ | ev
  · rw [hev] at h; simp at h
  · simp

lemma cacheWrite_isSome (jparse : JStr → Option UsageEvent) (L : JStr)
    (h : (cacheWrite jparse L).isSome = true) :
    (lineEvent jparse L).isSome = true := by
  unfold cacheWrite at h
  rcases hev : lineEvent jparse L with _ | ev
  · rw [hev] at h; simp at h
  · simp

lemma outWrite_isSome (jparse : JStr → Option UsageEvent) (L : JStr)
    (h : (outWrite jparse L).isSome = true) :
    (lineEvent jparse L).isSome = true := by
  unfold outWrite at h
  rcases hev : lineEvent jparse L with _ | ev
  · rw [hev] at h; simp at h
  · simp

/-- Re-running a line list that subsumes all effectful lines of a sub-run
overwrites everything the sub-run wrote. -/
lemma runLines_override (jparse : JStr → Option UsageEvent)
    (l l' : List JStr) (u : SSEUsageData)
    (hsub : ∀ L ∈ l', (lineEvent jparse L).isSome = true → L ∈ l) :
    runLines jparse l (runLines jparse l' u) = runLines jparse l u := by
  rw [runLines_fields jparse l', runLines_fields jparse l,
    runLines_fields jparse l]
  simp only [SSEUsageData.mk.injEq]
  refine ⟨?_, ?_, ?_⟩
  · by_cases hex : ∃ L ∈ l', (startWrite jparse L).isSome = true
    · rcases hex with ⟨L, hL, hsome⟩
      exact lastWriteFold_congr_init _ l _ _
        ⟨L, hsub L hL (startWrite_isSome jparse L hsome), hsome⟩
    · push_neg at hex
      rw [lastWriteFold_of_none _ l' _ (fun L hL => by
        have := hex L hL
        rcases h : startWrite jparse L with _ | b
        · rfl
        · rw [h] at this; simp at this)]
  · by_cases hex : ∃ L ∈ l', (cacheWrite jparse L).isSome = true
    · rcases hex with ⟨L, hL, hsome⟩
      exact lastWriteFold_congr_init _ l _ _
        ⟨L, hsub L hL (cacheWrite_isSome jparse L hsome), hsome⟩
    · push_neg at hex
      rw [lastWriteFold_of_none _ l' _ (fun L hL => by
        have := hex L hL
        rcases h : cacheWrite jparse L with _ | b
        · rfl
        · rw [h] at this; simp at this)]
  · by_cases hex : ∃ L ∈ l', (outWrite jparse L).isSome = true
    · rcases hex with ⟨L, hL, hsome⟩
      exact lastWriteFold_congr_init _ l _ _
        ⟨L, hsub L hL (outWrite_isSome jparse L hsome), hsome⟩
    · push_neg at hex
      rw [lastWriteFold_of_none _ l' _ (fun L hL => by
        have := hex L hL
        rcases h : outWrite jparse L with _ | b
        · rfl
        · rw [h] at this; simp at this)]

lemma foldl_streamStep_fst (jparse : JStr → Option UsageEvent) :
    ∀ (chunks : List JStr) (p : JStr) (u : SSEUsageData),
      (chunks.foldl (streamStep jparse) (p, u)).1 = p ++ chunks.join := by
  intro chunks
  induction chunks with
  | nil => intro p u; simp
  | cons c cs ih =>
    intro p u
    rw [List.foldl_cons]
    show (cs.foldl (streamStep jparse) (p ++ c, _)).1 = _
    rw [ih]
    simp

/-- Well-formedness of a streaming fixture with respect to the JSON parser:
no strict prefix of any of its lines parses to a usage event (as truncating
a well-formed JSON payload makes `JSON.parse` throw). -/
def PrefixSafe (jparse : JStr → Option UsageEvent) (full : JStr) : Prop :=
  ∀ L ∈ splitNL full, ∀ n < L.length, lineEvent jparse (L.take n) = none

instance (jparse : JStr → Option UsageEvent) (full : JStr) :
    Decidable (PrefixSafe jparse full) := by
  unfold PrefixSafe
  infer_instance

/-- Parsing rounds over growing buffer prefixes are absorbed by the final
full-string parse. -/
lemma streamStep_absorb (jparse : JStr → Option UsageEvent) :
    ∀ (chunks : List JStr) (p : JStr) (u : SSEUsageData) (full : JStr),
      (∃ r, full = (p ++ chunks.join) ++ r) → PrefixSafe jparse full →
      runLines jparse (splitNL full) ((chunks.foldl (streamStep jparse) (p, u)).2)
        = runLines jparse (splitNL full) u := by
  intro chunks
  induction chunks with
  | nil => intro p u full _ _; rfl
  | cons c cs ih =>
    rintro p u full ⟨r, hr⟩ hsafe
    rw [List.foldl_cons]
    show runLines jparse (splitNL full)
        ((cs.foldl (streamStep jparse) (p ++ c,
          runLines jparse (splitNL (p ++ c)) u)).2) = _
    rw [ih (p ++ c) _ full ⟨r, by rw [hr]; simp⟩ hsafe]
    apply runLines_override
    intro L hL hsome
    have hfull : full = (p ++ c) ++ (cs.join ++ r) := by rw [hr]; simp
    rcases mem_splitNL_prefix (p ++ c) (cs.join ++ r) L hL with ⟨L', hL', hpre⟩
    rw [← hfull] at hL'
    by_cases heq : L = L'
    · exact heq ▸ hL'
    · exfalso
      have hlt : L.length < L'.length := by
        rcases lt_or_eq_of_le hpre.length_le with h | h
        · exact h
        · exact absurd (List.prefix_iff_eq_take.mp hpre |>.trans
            (by rw [h, List.take_length])) heq
      have := hsafe L' hL' L.length hlt
      rw [← List.prefix_iff_eq_take.mp hpre] at this
      rw [this] at hsome
      simp at hsome

/-- The stream accumulator as the raw usage object that
`_recordUsageFromStreamData` hands to `_normalizeUsageSnapshot`. -/
def streamRaw (u : SSEUsageData) : RawUsage :=
  { input_tokens := u.startGroup.map (fun t => .jnum t.1),
    cache_creation_input_tokens := u.startGroup.map (fun t => .jnum t.2.1),
    cache_read_input_tokens := u.startGroup.map (fun t => .jnum t.2.2),
    cache_creation := u.cacheCreation.map (fun c =>
      ⟨some (.jnum c.1), some (.jnum c.2)⟩),
    output_tokens := u.outputTokens.map (fun q => .jnum q) }

/-- Modelled from the spec: the `usage` object of "the equivalent single
buffered response carrying the same logical token totals" — the buffered
JSON response's `usage` member (read by `_handleNonStreamResponse`) with
the standard Anthropic field names populated from the fixture's logical
totals. -/
def bufferedUsage (u : SSEUsageData) : RawUsage :=
  { input_tokens := u.startGroup.map (fun t => .jnum t.1),
    cache_creation_input_tokens := u.startGroup.map (fun t => .jnum t.2.1),
    cache_read_input_tokens := u.startGroup.map (fun t => .jnum t.2.2),
    cache_creation := u.cacheCreation.map (fun c =>
      ⟨some (.jnum c.1), some (.jnum c.2)⟩),
    output_tokens := u.outputTokens.map (fun q => .jnum q) }

/-- C6: for every streaming fixture (well-formed w.r.t. the JSON parser),
however its bytes are split into chunks, the incremental SSE parse equals
the one-shot parse of the whole byte string, and the normalized snapshot
of the streamed usage equals the normalized snapshot of the equivalent
buffered response carrying the same logical token totals. -/
theorem C6_chunked_stream_equals_buffered (jparse : JStr → Option UsageEvent)
    (chunks : List JStr) (hsafe : PrefixSafe jparse chunks.join) :
    runStream jparse chunks = runLines jparse (splitNL chunks.join) emptyUsage
    ∧ normalizeUsageSnapshot (streamRaw (runStream jparse chunks)) =
        normalizeUsageSnapshot (bufferedUsage
          (runLines jparse (splitNL chunks.join) emptyUsage)) := by
  have hmain : runStream jparse chunks =
      runLines jparse (splitNL chunks.join) emptyUsage := by
    rcases List.eq_nil_or_concat chunks with rfl | ⟨cs, c, rfl⟩
    · show emptyUsage = runLines jparse (splitNL []) emptyUsage
      simp [splitNL, runLines, applyLine, lineEvent]
    · simp only [List.concat_eq_append] at hsafe ⊢
      unfold runStream
      rw [List.foldl_concat]
      show runLines jparse
          (splitNL ((cs.foldl (streamStep jparse) ([], emptyUsage)).1 ++ c)) _ = _
      rw [foldl_streamStep_fst jparse cs [] emptyUsage]
      have hjoin : (cs ++ [c]).join = cs.join ++ c := by simp
      rw [hjoin] at hsafe ⊢
      simp only [List.nil_append]
      exact streamStep_absorb jparse cs [] emptyUsage (cs.join ++ c)
        ⟨c, by simp⟩ hsafe
  exact ⟨hmain, by rw [hmain]; rfl⟩


/-- A concrete JSON parser for the witness fixture: two well-formed
payloads, one `message_start` with cache details and one `message_delta`. -/
def sampleParse : JStr → Option UsageEvent := fun s =>
  if s = "{S}".toList then some (.messageStart 3 1 2 (some (4, 5)))
  else if s = "{D}".toList then some (.messageDelta 6)
  else none

/-- A byte split of the witness fixture that cuts a `data:` line in half. -/
def sampleChunks : List JStr :=
  ["data: {S}\nda".toList, "ta: {D}\n".toList]

/-- Witness for C6 at the concrete fixture split mid-line. -/
theorem C6_chunked_stream_equals_buffered_witness :
    runStream sampleParse sampleChunks =
      runLines sampleParse (splitNL sampleChunks.join) emptyUsage
    ∧ normalizeUsageSnapshot (streamRaw (runStream sampleParse sampleChunks)) =
        normalizeUsageSnapshot (bufferedUsage
          (runLines sampleParse (splitNL sampleChunks.join) emptyUsage)) :=
  C6_chunked_stream_equals_buffered sampleParse sampleChunks (by decide)

end Relay
